import Mathlib

/-!
Shallow embedding of the coreMQTT-Agent core (mqtt_agent.c and
mqtt_agent_command_functions.c).

The agent serializes access to an MQTT client: producers enqueue commands,
the agent dispatches them, tracks broker acknowledgments in a fixed table of
`AckInfo_t` slots, and invokes per-command completion callbacks.

Modelling conventions
* machine integers (`uint16_t` packet ids, `size_t` lengths) are `Nat`;
  the code never relies on overflow in the modelled paths;
* C pointers that may be NULL become `Option`;
* a `Command_t *` is modelled by a `Command` record carrying `cmdId`, the
  identity of the allocation (the pointer value), so that callback / release
  bookkeeping can be stated per command;
* side effects (invoking a completion callback, releasing a command to the
  pool, delivering an incoming publish, re-sending a publish) are recorded as
  an explicit list of `AgentEvent`s in program order;
* external collaborators (the MQTT client's `MQTT_ProcessLoop`,
  `MQTT_PublishToResend`, `MQTT_Publish`, the message queue and command pool)
  are passed in as explicit data: lists of incoming packets, lists of packet
  ids to resend, and status-returning oracles.
-/

namespace CoreMQTTAgent

/-- Status codes (`MQTTStatus_t`) surfaced by the agent core (from core_mqtt.h plus
the agent's own codes). -/
inductive MQTTStatus where
  | MQTTSuccess
  | MQTTBadParameter
  | MQTTNoMemory
  | MQTTSendFailed
  | MQTTRecvFailed
  | MQTTBadResponse
  | MQTTServerRefused
  | MQTTKeepAliveTimeout
  | MQTTIllegalState
  deriving DecidableEq, Repr

open MQTTStatus

/-- Command types (`CommandType_t`) from mqtt_agent.h.  `NONE` is the zero value. -/
inductive CommandType where
  | NONE
  | PROCESSLOOP
  | PUBLISH
  | SUBSCRIBE
  | UNSUBSCRIBE
  | PING
  | CONNECT
  | DISCONNECT
  | TERMINATE
  deriving DecidableEq, Repr

/-- The fields of `MQTTPublishInfo_t` the agent core reads or writes:
`qos`, `dup` and `topicNameLength`. -/
structure MQTTPublishInfo where
  qos : Nat
  dup : Bool
  topicNameLength : Nat
  deriving DecidableEq, Repr

/-- A `Command_t`.  `cmdId` models the identity of the `Command_t *`
allocation.  `pubInfo` models `pArgs` viewed as `MQTTPublishInfo_t *` when
the command is a PUBLISH (`none` when `pArgs` does not point at publish
info).  `hasCallback` models `pCommandCompleteCallback != NULL`. -/
structure Command where
  cmdId : Nat
  commandType : CommandType
  pubInfo : Option MQTTPublishInfo
  hasCallback : Bool
  deriving DecidableEq, Repr

/-- Completion-callback payload (`MQTTAgentReturnInfo_t`): status plus the SUBACK-codes pointer, modelled
as the address (a `Nat`) it points to, `none` for NULL. -/
structure ReturnInfo where
  returnCode : MQTTStatus
  pSubackCodes : Option Nat
  deriving DecidableEq, Repr

/-- Model of `AckInfo_t`: one pending-ack slot.  `packetId = 0` marks an unused
slot. -/
structure AckInfo where
  packetId : Nat
  pOriginalCommand : Option Command
  deriving DecidableEq, Repr

/-- The all-zero (memset) `AckInfo_t`. -/
def emptyAck : AckInfo := { packetId := 0, pOriginalCommand := none }

/-- Constant `MQTT_PACKET_ID_INVALID` (0). -/
def MQTT_PACKET_ID_INVALID : Nat := 0

/-- Constant `MQTT_AGENT_MAX_OUTSTANDING_ACKS` (default 20): the length of the
`pPendingAcks` array.  The table is modelled as a `List AckInfo`; the source
always iterates the whole array, which corresponds to structural recursion
over the list. -/
def MQTT_AGENT_MAX_OUTSTANDING_ACKS : Nat := 20

/-- Observable side effects of the agent core, in program order. -/
inductive AgentEvent where
  /-- Effect: `pCommandCompleteCallback( pCmdContext, &returnInfo )` ran for the
  command with identity `cmdId`. -/
  | CallbackInvoked (cmdId : Nat) (info : ReturnInfo)
  /-- Effect: `agentInterface.releaseCommand( pCommand )` ran for `cmdId`. -/
  | CommandReleased (cmdId : Nat)
  /-- Effect: `pIncomingCallback( pAgentContext, packetIdentifier, pPublishInfo )`
  ran for a broker-originated PUBLISH. -/
  | IncomingPublishDelivered (packetId : Nat)
  /-- Effect: `MQTT_Publish( pMqttContext, pOriginalPublish, packetId )` ran during
  `resendPublishes`, with the publish info as it was sent. -/
  | PublishResent (packetId : Nat) (info : MQTTPublishInfo)
  deriving DecidableEq, Repr

/-! ## Pending-ack table primitives (mqtt_agent.c) -/

/-- Source `isSpaceInPendingAckList`: true when some slot has
`packetId == MQTT_PACKET_ID_INVALID`. -/
def isSpaceInPendingAckList (pendingAcks : List AckInfo) : Bool :=
  pendingAcks.any (fun a => a.packetId = MQTT_PACKET_ID_INVALID)

/-- Source `addAwaitingOperation`: write `(packetId, pCommand)` into the first slot
whose `packetId` is `MQTT_PACKET_ID_INVALID`.  Returns the updated table, or
`none` when no free slot exists (`ackAdded == false`; the C table is then
unmodified, and the caller keeps the original list). -/
def addAwaitingOperation (pendingAcks : List AckInfo) (packetId : Nat)
    (pCommand : Option Command) : Option (List AckInfo) :=
  match pendingAcks with
  | [] => none
  | a :: rest =>
    if a.packetId = MQTT_PACKET_ID_INVALID then
      some ({ packetId := packetId, pOriginalCommand := pCommand } :: rest)
    else
      match addAwaitingOperation rest packetId pCommand with
      | some rest' => some (a :: rest')
      | none => none

/-- Source `getAwaitingOperation`: scan for the first slot whose `packetId` equals
`incomingPacketId`; the C code returns a pointer into the array, modelled as
the slot's index together with its contents.  After the scan the source
rejects a found slot whose `pOriginalCommand` is NULL or whose `packetId` is
0, returning NULL. -/
def getAwaitingOperation (pendingAcks : List AckInfo) (incomingPacketId : Nat) :
    Option (Nat × AckInfo) :=
  match pendingAcks with
  | [] => none
  | a :: rest =>
    if a.packetId = incomingPacketId then
      if a.pOriginalCommand = none ∨ a.packetId = 0 then none
      else some (0, a)
    else
      match getAwaitingOperation rest incomingPacketId with
      | some (i, b) => some (i + 1, b)
      | none => none

/-! ## Incoming-packet correlation (mqtt_agent.c) -/

/-- MQTT control-packet type bytes consumed from core_mqtt_serializer.h. -/
def MQTT_PACKET_TYPE_PUBLISH : Nat := 0x30

def MQTT_PACKET_TYPE_PUBACK : Nat := 0x40

def MQTT_PACKET_TYPE_PUBREC : Nat := 0x50

def MQTT_PACKET_TYPE_PUBREL : Nat := 0x62

def MQTT_PACKET_TYPE_PUBCOMP : Nat := 0x70

def MQTT_PACKET_TYPE_SUBACK : Nat := 0x90

def MQTT_PACKET_TYPE_UNSUBACK : Nat := 0xB0

def MQTT_PACKET_TYPE_PINGRESP : Nat := 0xD0

/-- One incoming packet as seen by `mqttEventCallback`: the
`MQTTPacketInfo_t` type byte and `pRemainingData` pointer (modelled as the
address it holds), and the `MQTTDeserializedInfo_t` packet identifier and
deserialization result. -/
structure IncomingPacket where
  packetType : Nat
  pRemainingData : Nat
  packetIdentifier : Nat
  deserializationResult : MQTTStatus
  deriving DecidableEq, Repr

/-- Source `handleAcks`: invoke the original command's completion callback (when
present) with the deserialization status and, for SUBACK, the suback codes
at `pRemainingData + 2`; release the command; zero the slot at `idx`. -/
def handleAcks (pendingAcks : List AckInfo) (idx : Nat) (origCmd : Command)
    (packet : IncomingPacket) : List AckInfo × List AgentEvent :=
  let pSubackCodes : Option Nat :=
    if packet.packetType = MQTT_PACKET_TYPE_SUBACK then
      some (packet.pRemainingData + 2)
    else
      none
  let callbackEvents : List AgentEvent :=
    if origCmd.hasCallback then
      [AgentEvent.CallbackInvoked origCmd.cmdId
        { returnCode := packet.deserializationResult,
          pSubackCodes := pSubackCodes }]
    else
      []
  (pendingAcks.set idx emptyAck,
    callbackEvents ++ [AgentEvent.CommandReleased origCmd.cmdId])

/-- Result of `mqttEventCallback`: the table afterwards, the emitted events
and the `packetReceivedInLoop` flag (always set to true on entry). -/
structure EventCallbackResult where
  pendingAcks : List AckInfo
  events : List AgentEvent
  packetReceivedInLoop : Bool
  deriving DecidableEq, Repr

/-- Source `mqttEventCallback`: set `packetReceivedInLoop`; deliver incoming
PUBLISHes to the incoming-publish callback; correlate PUBACK / PUBCOMP /
SUBACK / UNSUBACK with the pending-ack table through `getAwaitingOperation`
and `handleAcks`; ignore PUBREC / PUBREL; log and drop everything else. -/
def mqttEventCallback (pendingAcks : List AckInfo) (packet : IncomingPacket) :
    EventCallbackResult :=
  if packet.packetType &&& 0xF0 = MQTT_PACKET_TYPE_PUBLISH then
    { pendingAcks := pendingAcks,
      events := [AgentEvent.IncomingPublishDelivered packet.packetIdentifier],
      packetReceivedInLoop := true }
  else if packet.packetType = MQTT_PACKET_TYPE_PUBACK ∨
          packet.packetType = MQTT_PACKET_TYPE_PUBCOMP ∨
          packet.packetType = MQTT_PACKET_TYPE_SUBACK ∨
          packet.packetType = MQTT_PACKET_TYPE_UNSUBACK then
    match getAwaitingOperation pendingAcks packet.packetIdentifier with
    | some (idx, ack) =>
      match ack.pOriginalCommand with
      | some origCmd =>
        let (table', events) := handleAcks pendingAcks idx origCmd packet
        { pendingAcks := table', events := events, packetReceivedInLoop := true }
      | none =>
        -- unreachable: getAwaitingOperation rejects slots with a NULL
        -- command (the source asserts pAckInfo->pOriginalCommand != NULL)
        { pendingAcks := pendingAcks, events := [], packetReceivedInLoop := true }
    | none =>
      { pendingAcks := pendingAcks, events := [], packetReceivedInLoop := true }
  else
    { pendingAcks := pendingAcks, events := [], packetReceivedInLoop := true }

/-- A run of `MQTT_ProcessLoop` deliveries: `mqttEventCallback` applied to a
sequence of incoming packets, accumulating events in order. -/
def runIncoming (pendingAcks : List AckInfo) :
    List IncomingPacket → List AckInfo × List AgentEvent
  | [] => (pendingAcks, [])
  | packet :: rest =>
    let r := mqttEventCallback pendingAcks packet
    let (table', events') := runIncoming r.pendingAcks rest
    (table', r.events ++ events')

/-! ## processCommand (mqtt_agent.c) -/

/-- Handler out-flags (`MQTTAgentCommandFuncReturns_t`): the flags a command handler reports back
to the loop. -/
structure CommandFuncReturns where
  packetId : Nat
  addAcknowledgment : Bool
  runProcessLoop : Bool
  endLoop : Bool
  deriving DecidableEq, Repr

/-- Result of `processCommand`: the table afterwards, the emitted events in
program order, the returned `MQTTStatus_t`, and the `*pEndLoop` output. -/
structure ProcessCommandResult where
  pendingAcks : List AckInfo
  events : List AgentEvent
  status : MQTTStatus
  endLoop : Bool
  deriving DecidableEq, Repr

/-- Source `processCommand`.  The handler call itself is an external effect already
performed: its status and out-flags are `handlerStatus` and `flags`.  The
`do { MQTT_ProcessLoop } while( packetReceivedInLoop )` drive is modelled by
the list of packets the client delivers to `mqttEventCallback` during it
(`incomingPackets`) and the final status `processLoopStatus` returned by the
last `MQTT_ProcessLoop` call (equal to `MQTTSuccess` when the connection is
not established and the loop body never runs). -/
def processCommand (pendingAcks : List AckInfo) (pCommand : Option Command)
    (handlerStatus : MQTTStatus) (flags : CommandFuncReturns)
    (incomingPackets : List IncomingPacket) (processLoopStatus : MQTTStatus) :
    ProcessCommandResult :=
  -- step 1: park the ack when the handler succeeded and asked for one
  let step1 : MQTTStatus × List AckInfo × Bool :=
    if handlerStatus = MQTTSuccess ∧ flags.addAcknowledgment then
      match addAwaitingOperation pendingAcks flags.packetId pCommand with
      | some table' => (handlerStatus, table', true)
      | none => (MQTTNoMemory, pendingAcks, false)
    else
      (handlerStatus, pendingAcks, false)
  let operationStatus₁ := step1.1
  let table₁ := step1.2.1
  let ackAdded := step1.2.2
  -- step 2: complete the command when it exists and no ack was parked
  let completionEvents : List AgentEvent :=
    match pCommand with
    | some c =>
      if ackAdded then
        []
      else
        (if c.hasCallback then
           [AgentEvent.CallbackInvoked c.cmdId
             { returnCode := operationStatus₁, pSubackCodes := none }]
         else
           []) ++ [AgentEvent.CommandReleased c.cmdId]
    | none => []
  -- step 3: drive the process loop when the status is success and the
  -- handler asked for it
  let step3 : MQTTStatus × List AckInfo × List AgentEvent :=
    if operationStatus₁ = MQTTSuccess ∧ flags.runProcessLoop then
      let (table₂, loopEvents) := runIncoming table₁ incomingPackets
      (processLoopStatus, table₂, loopEvents)
    else
      (operationStatus₁, table₁, [])
  { pendingAcks := step3.2.1,
    events := completionEvents ++ step3.2.2,
    status := step3.1,
    endLoop := flags.endLoop ∨ step3.1 ≠ MQTTSuccess }

/-! ## Command functions (mqtt_agent_command_functions.c) -/

/-- Source `concludeCommandAsError`: invoke the callback (when present) with
`MQTTBadResponse`, then release the command. -/
def concludeCommandAsError (pCommand : Command) : List AgentEvent :=
  (if pCommand.hasCallback then
     [AgentEvent.CallbackInvoked pCommand.cmdId
       { returnCode := MQTTBadResponse, pSubackCodes := none }]
   else
     []) ++ [AgentEvent.CommandReleased pCommand.cmdId]

/-- The queue-draining `do { recv } while( commandWasReceived )` loop of
`MQTTAgentCommand_Terminate`: each command still in the message queue is
concluded as an error, in FIFO order. -/
def drainCommandQueue (queue : List Command) : List AgentEvent :=
  match queue with
  | [] => []
  | c :: rest => concludeCommandAsError c ++ drainCommandQueue rest

/-- The table-draining loop of `MQTTAgentCommand_Terminate`: every slot with
a non-`MQTT_PACKET_ID_INVALID` packet id has its original command concluded
as an error and is then zeroed.  The source dereferences
`pendingAcks[ i ].pOriginalCommand` unconditionally; the `none` branch is
only meaningful under the invariant that occupied slots hold a command. -/
def drainPendingAcks (pendingAcks : List AckInfo) :
    List AgentEvent × List AckInfo :=
  match pendingAcks with
  | [] => ([], [])
  | a :: rest =>
    let (events, rest') := drainPendingAcks rest
    if a.packetId ≠ MQTT_PACKET_ID_INVALID then
      ((match a.pOriginalCommand with
        | some c => concludeCommandAsError c
        | none => []) ++ events,
       emptyAck :: rest')
    else
      (events, a :: rest')

/-- Source `MQTTAgentCommand_Terminate`: set `endLoop`, drain the queue, drain the
table, return `MQTTSuccess`. -/
def MQTTAgentCommand_Terminate (queue : List Command)
    (pendingAcks : List AckInfo) :
    List AgentEvent × List AckInfo × CommandFuncReturns × MQTTStatus :=
  let flags : CommandFuncReturns :=
    { packetId := 0, addAcknowledgment := false, runProcessLoop := false,
      endLoop := true }
  let queueEvents := drainCommandQueue queue
  let (ackEvents, table') := drainPendingAcks pendingAcks
  (queueEvents ++ ackEvents, table', flags, MQTTSuccess)

/-! ## Session resumption (mqtt_agent.c) -/

/-- Source `clearPendingAcknowledgments`: for every slot with a
non-`MQTT_PACKET_ID_INVALID` packet id, invoke the original command's
callback (when present) with `MQTTRecvFailed`, then zero the slot.  The
source dereferences `pOriginalCommand` unconditionally; the `none` branch is
only meaningful under the invariant that occupied slots hold a command.
Note the source does not release the command here. -/
def clearPendingAcknowledgments (pendingAcks : List AckInfo) :
    List AgentEvent × List AckInfo :=
  match pendingAcks with
  | [] => ([], [])
  | a :: rest =>
    let (events, rest') := clearPendingAcknowledgments rest
    if a.packetId ≠ MQTT_PACKET_ID_INVALID then
      ((match a.pOriginalCommand with
        | some c =>
          if c.hasCallback then
            [AgentEvent.CallbackInvoked c.cmdId
              { returnCode := MQTTRecvFailed, pSubackCodes := none }]
          else
            []
        | none => []) ++ events,
       emptyAck :: rest')
    else
      (events, a :: rest')

/-- Source `resendPublishes`: walk the packet ids yielded by
`MQTT_PublishToResend` (modelled as the list `resendIds`, which the cursor
produces before the `MQTT_PACKET_ID_INVALID` sentinel).  For each id found
in the table, cast the original command's `pArgs` to publish info, set its
`dup` flag and call `MQTT_Publish` with the same packet id (its status given
by the oracle `publishStatus`); the first failing publish breaks the loop
and its status is returned.  Returns `none` when a found command's `pArgs`
is not publish info (the C cast would misinterpret memory). -/
def resendPublishes (pendingAcks : List AckInfo) (resendIds : List Nat)
    (publishStatus : Nat → MQTTStatus) :
    Option (MQTTStatus × List AckInfo × List AgentEvent) :=
  match resendIds with
  | [] => some (MQTTSuccess, pendingAcks, [])
  | packetId :: rest =>
    match getAwaitingOperation pendingAcks packetId with
    | some (idx, ack) =>
      match ack.pOriginalCommand with
      | some c =>
        match c.pubInfo with
        | some info =>
          let info' := { info with dup := true }
          let c' := { c with pubInfo := some info' }
          let table' := pendingAcks.set idx { ack with pOriginalCommand := some c' }
          let ev := AgentEvent.PublishResent packetId info'
          let statusResult := publishStatus packetId
          if statusResult = MQTTSuccess then
            match resendPublishes table' rest publishStatus with
            | some (st, t, evs) => some (st, t, ev :: evs)
            | none => none
          else
            some (statusResult, table', [ev])
        | none => none
      | none =>
        -- unreachable: getAwaitingOperation rejects slots with a NULL command
        none
    | none =>
      match resendPublishes pendingAcks rest publishStatus with
      | some (st, t, evs) => some (st, t, evs)
      | none => none

/-- The agent-context state `MQTTAgent_ResumeSession` reads and writes: the
MQTT client's `nextPacketId` and the pending-ack table. -/
structure AgentState where
  nextPacketId : Nat
  pendingAcks : List AckInfo
  deriving DecidableEq, Repr

/-- Source `MQTTAgent_ResumeSession`.  The context pointer is `Option AgentState`
(`none` for NULL).  Returns the status, the context afterwards and the
emitted events; `none` in the middle component never arises from a `some`
input (the source never frees the context). -/
def MQTTAgent_ResumeSession (pContext : Option AgentState)
    (sessionPresent : Bool) (resendIds : List Nat)
    (publishStatus : Nat → MQTTStatus) :
    MQTTStatus × Option AgentState × List AgentEvent :=
  match pContext with
  | none => (MQTTBadParameter, none, [])
  | some ctx =>
    if ctx.nextPacketId ≠ MQTT_PACKET_ID_INVALID then
      if sessionPresent then
        match resendPublishes ctx.pendingAcks resendIds publishStatus with
        | some (st, table', events) =>
          (st, some { ctx with pendingAcks := table' }, events)
        | none =>
          -- type-confused cast inside resendPublishes; never reached when
          -- every parked packet id a session resends belongs to a PUBLISH
          (MQTTBadParameter, some ctx, [])
      else
        let (events, table') := clearPendingAcknowledgments ctx.pendingAcks
        (MQTTSuccess, some { ctx with pendingAcks := table' }, events)
    else
      (MQTTBadParameter, some ctx, [])

/-! ## Public API validation and enqueue pipeline (mqtt_agent.c) -/

/-- Which members of `AgentMessageInterface_t` are non-NULL, as checked by
`validateStruct`. -/
structure InterfacePresence where
  sendNonNull : Bool
  recvNonNull : Bool
  getCommandNonNull : Bool
  releaseCommandNonNull : Bool
  msgCtxNonNull : Bool
  deriving DecidableEq, Repr

/-- Source `validateStruct`: the agent context, the command info and all five
message-interface members must be non-NULL. -/
def validateStruct (contextNonNull : Bool) (interfacePresence : InterfacePresence)
    (commandInfoNonNull : Bool) : Bool :=
  contextNonNull && commandInfoNonNull &&
    interfacePresence.sendNonNull && interfacePresence.recvNonNull &&
    interfacePresence.getCommandNonNull &&
    interfacePresence.releaseCommandNonNull && interfacePresence.msgCtxNonNull

/-- The per-command parameter of `createCommand` / `validateParams`:
`pMqttInfoParam` viewed at the type the command requires. -/
inductive CommandParam where
  /-- A PUBLISH's `MQTTPublishInfo_t`. -/
  | publishParam (info : MQTTPublishInfo)
  /-- A SUBSCRIBE / UNSUBSCRIBE's `MQTTAgentSubscribeArgs_t`:
  `pSubscribeInfo` non-NULL flag and `numSubscriptions`. -/
  | subscribeParam (subscribeInfoNonNull : Bool) (numSubscriptions : Nat)
  /-- A CONNECT's `MQTTAgentConnectArgs_t`: `pConnectInfo` non-NULL flag. -/
  | connectParam (connectInfoNonNull : Bool)
  /-- NULL or unused `pMqttInfoParam`. -/
  | noParam
  deriving DecidableEq, Repr

/-- Source `validateParams` for CONNECT / SUBSCRIBE / UNSUBSCRIBE / PUBLISH.  A
`none` argument is a NULL `pParams`. -/
def validateParams (commandType : CommandType) (pParams : Option CommandParam) :
    Bool :=
  match commandType, pParams with
  | CommandType.CONNECT, some (CommandParam.connectParam connectInfoNonNull) =>
    connectInfoNonNull
  | CommandType.SUBSCRIBE, some (CommandParam.subscribeParam siNonNull n) =>
    siNonNull && decide (n ≠ 0)
  | CommandType.UNSUBSCRIBE, some (CommandParam.subscribeParam siNonNull n) =>
    siNonNull && decide (n ≠ 0)
  | _, some _ => true
  | _, none => false

/-- Source `createCommand`: validate the variant-specific parameters against the
pending-ack table and the network buffer, and fill in the command on
success.  `bufferSize` is `mqttContext.networkBuffer.size`. -/
def createCommand (commandType : CommandType) (pendingAcks : List AckInfo)
    (bufferSize : Nat) (param : CommandParam) (hasCallback : Bool)
    (cmdId : Nat) : MQTTStatus × Option Command :=
  let uxControlAndLengthBytes : Nat := 4
  let spaceAndValid : Bool × Bool :=
    match commandType, param with
    | CommandType.SUBSCRIBE, _ =>
      let isSpace := isSpaceInPendingAckList pendingAcks
      (isSpace, isSpace)
    | CommandType.UNSUBSCRIBE, _ =>
      let isSpace := isSpaceInPendingAckList pendingAcks
      (isSpace, isSpace)
    | CommandType.PUBLISH, CommandParam.publishParam info =>
      let uxHeaderBytes := uxControlAndLengthBytes + info.topicNameLength
      let isSpace :=
        if info.qos ≠ 0 then isSpaceInPendingAckList pendingAcks else true
      (isSpace, decide (uxHeaderBytes < bufferSize) && isSpace)
    | _, _ => (true, true)
  let isSpace := spaceAndValid.1
  let isValid := spaceAndValid.2
  let statusReturn := if isValid then MQTTSuccess else MQTTBadParameter
  let statusReturn :=
    if statusReturn = MQTTBadParameter ∧ isSpace = false then MQTTNoMemory
    else statusReturn
  (statusReturn,
    if isValid then
      some { cmdId := cmdId, commandType := commandType,
             pubInfo := match param with
                        | CommandParam.publishParam info => some info
                        | _ => none,
             hasCallback := hasCallback }
    else
      none)

/-- Source `createAndAddCommand`: check the MQTT context is initialized
(`nextPacketId != MQTT_PACKET_ID_INVALID`), borrow a command from the pool
(`poolCommand` is the id `getCommand` yields, `none` when the pool is
empty), create the command, post it to the queue (`sendOk` is the queue
interface's verdict) and release it on any failure.  Returns the status and
whether a command was enqueued.  The pending-ack table is never written on
this path. -/
def createAndAddCommand (commandType : CommandType) (nextPacketId : Nat)
    (pendingAcks : List AckInfo) (bufferSize : Nat) (param : CommandParam)
    (hasCallback : Bool) (poolCommand : Option Nat) (sendOk : Bool) :
    MQTTStatus × Bool :=
  if nextPacketId ≠ MQTT_PACKET_ID_INVALID then
    match poolCommand with
    | some cmdId =>
      let (createStatus, _) :=
        createCommand commandType pendingAcks bufferSize param hasCallback cmdId
      if createStatus = MQTTSuccess then
        if sendOk then (MQTTSuccess, true) else (MQTTSendFailed, false)
      else
        (createStatus, false)
    | none => (MQTTNoMemory, false)
  else
    (MQTTBadParameter, false)

/-- Result of a public enqueue API call: the returned status, whether a
command reached the queue, and the pending-ack table afterwards (these
functions never write it). -/
structure EnqueueResult where
  status : MQTTStatus
  enqueued : Bool
  pendingAcks : List AckInfo
  deriving DecidableEq, Repr

/-- Source `MQTTAgent_Publish`: `validateStruct` and `validateParams( PUBLISH )`,
then `createAndAddCommand( PUBLISH, ... )`. -/
def MQTTAgent_Publish (contextNonNull : Bool)
    (interfacePresence : InterfacePresence) (commandInfoNonNull : Bool)
    (pPublishInfo : Option MQTTPublishInfo) (nextPacketId : Nat)
    (pendingAcks : List AckInfo) (bufferSize : Nat) (hasCallback : Bool)
    (poolCommand : Option Nat) (sendOk : Bool) : EnqueueResult :=
  let paramsValid :=
    validateStruct contextNonNull interfacePresence commandInfoNonNull &&
      validateParams CommandType.PUBLISH
        (pPublishInfo.map CommandParam.publishParam)
  if paramsValid then
    let (status, enqueued) :=
      createAndAddCommand CommandType.PUBLISH nextPacketId pendingAcks
        bufferSize
        (match pPublishInfo with
         | some info => CommandParam.publishParam info
         | none => CommandParam.noParam)
        hasCallback poolCommand sendOk
    { status := status, enqueued := enqueued, pendingAcks := pendingAcks }
  else
    { status := MQTTBadParameter, enqueued := false, pendingAcks := pendingAcks }

/-! ## Derived observables used by the verified properties -/

/-- Number of `CallbackInvoked` events for the command identity `cmdId`. -/
def callbackCount (events : List AgentEvent) (cmdId : Nat) : Nat :=
  events.countP (fun e =>
    match e with
    | AgentEvent.CallbackInvoked c _ => decide (c = cmdId)
    | _ => false)

/-- Number of pending-ack slots whose original command has identity
`cmdId`. -/
def cmdOccurrences (pendingAcks : List AckInfo) (cmdId : Nat) : Nat :=
  pendingAcks.countP (fun a =>
    match a.pOriginalCommand with
    | some c => decide (c.cmdId = cmdId)
    | none => false)

/-- Number of pending-ack slots holding the packet id `packetId`. -/
def pidOccurrences (pendingAcks : List AckInfo) (packetId : Nat) : Nat :=
  pendingAcks.countP (fun a => decide (a.packetId = packetId))

/-- Ack-uniqueness invariant: at most one slot holds any given non-zero
packet id. -/
def ackUniqueness (pendingAcks : List AckInfo) : Prop :=
  ∀ packetId : Nat, packetId ≠ 0 → pidOccurrences pendingAcks packetId ≤ 1

/-- The entry-identity of a slot as stored in the C `AckInfo_t` struct: the
packet id and the `Command_t *` pointer (its identity `cmdId`).  These are
the two fields `resendPublishes` never writes. -/
def ackEntryId (a : AckInfo) : Nat × Option Nat :=
  (a.packetId, a.pOriginalCommand.map Command.cmdId)

/-- The mutations of the pending-ack table performed by the agent: reserving
a slot in `processCommand`, an incoming packet handled by
`mqttEventCallback`, `clearPendingAcknowledgments`, and the draining loop of
`MQTTAgentCommand_Terminate`. -/
inductive TableOp where
  | reserve (packetId : Nat) (cmd : Command)
  | deliver (packet : IncomingPacket)
  | clearAll
  | terminateDrain
  deriving DecidableEq, Repr

/-- Apply one table mutation.  A failed reservation leaves the table
unchanged, as in the source. -/
def applyTableOp (pendingAcks : List AckInfo) : TableOp → List AckInfo
  | TableOp.reserve packetId cmd =>
    (addAwaitingOperation pendingAcks packetId (some cmd)).getD pendingAcks
  | TableOp.deliver packet => (mqttEventCallback pendingAcks packet).pendingAcks
  | TableOp.clearAll => (clearPendingAcknowledgments pendingAcks).2
  | TableOp.terminateDrain => (drainPendingAcks pendingAcks).2

/-- Apply a sequence of table mutations in order. -/
def applyTableOps (pendingAcks : List AckInfo) : List TableOp → List AckInfo
  | [] => pendingAcks
  | op :: ops => applyTableOps (applyTableOp pendingAcks op) ops

/-- A sequence of table mutations whose reservations are fresh: each
`reserve` uses a non-zero packet id not currently in the table (this is what
`MQTT_GetPacketId` provides short of a 16-bit wrap-around with the old id
still parked). -/
def freshReserves (pendingAcks : List AckInfo) : List TableOp → Prop
  | [] => True
  | op :: ops =>
    (match op with
     | TableOp.reserve packetId _ =>
       packetId ≠ 0 ∧ pidOccurrences pendingAcks packetId = 0
     | _ => True) ∧ freshReserves (applyTableOp pendingAcks op) ops

/-- Tables whose slots holding the command identity `cmdId` always carry a
completion callback.  Holds vacuously when no slot holds `cmdId`. -/
def callbackReady (pendingAcks : List AckInfo) (cmdId : Nat) : Prop :=
  ∀ a ∈ pendingAcks, ∀ c, a.pOriginalCommand = some c → c.cmdId = cmdId →
    c.hasCallback = true

/-- Relation between a pending-ack slot before `resendPublishes` and after:
either unchanged, or identical except that the publish-info behind the
original command's `pArgs` has its `dup` flag set.  The `AckInfo_t` fields
themselves (`packetId` and the `Command_t *`) are never written. -/
def dupVariant (a b : AckInfo) : Prop :=
  b = a ∨
  ∃ c info, a.pOriginalCommand = some c ∧ c.pubInfo = some info ∧
    b = { a with
            pOriginalCommand :=
              some { c with pubInfo := some { info with dup := true } } }

/-! Sanity checks on concrete inputs. -/

example :
    (MQTTAgent_Publish true
      { sendNonNull := true, recvNonNull := true, getCommandNonNull := true,
        releaseCommandNonNull := true, msgCtxNonNull := true } true
      (some { qos := 1, dup := false, topicNameLength := 6 }) 5
      [{ packetId := 1,
         pOriginalCommand := some { cmdId := 3,
                                    commandType := CommandType.PUBLISH,
                                    pubInfo := none, hasCallback := true } }]
      10 true (some 0) true).status = MQTTNoMemory := by decide

example :
    (MQTTAgent_Publish true
      { sendNonNull := true, recvNonNull := true, getCommandNonNull := true,
        releaseCommandNonNull := true, msgCtxNonNull := true } true
      (some { qos := 0, dup := false, topicNameLength := 6 }) 5
      [{ packetId := 1,
         pOriginalCommand := some { cmdId := 3,
                                    commandType := CommandType.PUBLISH,
                                    pubInfo := none, hasCallback := true } }]
      10 true (some 0) true).status = MQTTBadParameter := by decide

example :
    addAwaitingOperation [emptyAck, emptyAck] 7
      (some { cmdId := 1, commandType := CommandType.PUBLISH,
              pubInfo := none, hasCallback := true }) =
    some [{ packetId := 7,
            pOriginalCommand := some { cmdId := 1,
                                       commandType := CommandType.PUBLISH,
                                       pubInfo := none, hasCallback := true } },
          emptyAck] := by decide

example :
    getAwaitingOperation
      [emptyAck,
       { packetId := 7,
         pOriginalCommand := some { cmdId := 1,
                                    commandType := CommandType.PUBLISH,
                                    pubInfo := none, hasCallback := true } }] 7 =
    some (1, { packetId := 7,
               pOriginalCommand := some { cmdId := 1,
                                          commandType := CommandType.PUBLISH,
                                          pubInfo := none,
                                          hasCallback := true } }) := by decide

example : getAwaitingOperation [emptyAck, emptyAck] 0 = none := by decide

/-! ## Infrastructure lemmas -/

theorem countP_set_add {α : Type} (p : α → Bool) (l : List α) (i : Nat)
    (b x : α) (h : l[i]? = some b) :
    (l.set i x).countP p + (if p b then 1 else 0) =
      l.countP p + (if p x then 1 else 0) := by
  induction l generalizing i with
  | nil => simp at h
  | cons a t ih =>
    cases i with
    | zero =>
      simp only [List.getElem?_cons_zero, Option.some_inj] at h
      subst h
      simp only [List.set_cons_zero, List.countP_cons]
      omega
    | succ n =>
      simp only [List.getElem?_cons_succ] at h
      simp only [List.set_cons_succ, List.countP_cons]
      have := ih n h
      omega

theorem countP_pos_of_mem_index {α : Type} (p : α → Bool) (l : List α)
    (i : Nat) (b : α) (h : l[i]? = some b) (hb : p b = true) :
    1 ≤ l.countP p := by
  induction l generalizing i with
  | nil => simp at h
  | cons a t ih =>
    cases i with
    | zero =>
      simp only [List.getElem?_cons_zero, Option.some_inj] at h
      subst h
      simp [List.countP_cons, hb]
    | succ n =>
      simp only [List.getElem?_cons_succ] at h
      have := ih n h
      simp only [List.countP_cons]
      omega

theorem getAwaitingOperation_eq_some (pendingAcks : List AckInfo)
    (incomingPacketId : Nat) (i : Nat) (a : AckInfo)
    (h : getAwaitingOperation pendingAcks incomingPacketId = some (i, a)) :
    pendingAcks[i]? = some a ∧ a.packetId = incomingPacketId ∧
      incomingPacketId ≠ 0 ∧ ∃ c, a.pOriginalCommand = some c := by
  induction pendingAcks generalizing i with
  | nil => simp [getAwaitingOperation] at h
  | cons hd tl ih =>
    rw [getAwaitingOperation] at h
    by_cases h1 : hd.packetId = incomingPacketId
    · rw [if_pos h1] at h
      by_cases h2 : hd.pOriginalCommand = none ∨ hd.packetId = 0
      · rw [if_pos h2] at h
        exact absurd h (by simp)
      · rw [if_neg h2] at h
        push_neg at h2
        have hia : (0, hd) = (i, a) := Option.some_inj.mp h
        have hi : i = 0 := (Prod.mk.injEq _ _ _ _ ▸ hia).1.symm
        have ha : hd = a := (Prod.mk.injEq _ _ _ _ ▸ hia).2
        refine ⟨?_, ?_, ?_, ?_⟩
        · rw [hi, ← ha]; simp
        · rw [← ha]; exact h1
        · intro h0
          exact h2.2 (by rw [h1, h0])
        · cases hc : a.pOriginalCommand with
          | none => exact absurd (ha ▸ hc) h2.1
          | some c => exact ⟨c, rfl⟩
    · rw [if_neg h1] at h
      cases hrec : getAwaitingOperation tl incomingPacketId with
      | none => rw [hrec] at h; simp at h
      | some pair =>
        obtain ⟨j, b⟩ := pair
        rw [hrec] at h
        have hia : (j + 1, b) = (i, a) := Option.some_inj.mp h
        have hi : i = j + 1 := (Prod.mk.injEq _ _ _ _ ▸ hia).1.symm
        have hb : b = a := (Prod.mk.injEq _ _ _ _ ▸ hia).2
        obtain ⟨hget, hpid, hnz, hc⟩ := ih j (hb ▸ hrec)
        rw [hi]
        exact ⟨by simpa using hget, hpid, hnz, hc⟩

theorem getAwaitingOperation_zero (pendingAcks : List AckInfo) :
    getAwaitingOperation pendingAcks 0 = none := by
  induction pendingAcks with
  | nil => rfl
  | cons hd tl ih =>
    rw [getAwaitingOperation]
    by_cases h1 : hd.packetId = 0
    · simp [h1]
    · simp only [h1, if_false, ih]

theorem getAwaitingOperation_eq_none (pendingAcks : List AckInfo)
    (incomingPacketId : Nat)
    (h : ∀ b ∈ pendingAcks, b.packetId ≠ incomingPacketId) :
    getAwaitingOperation pendingAcks incomingPacketId = none := by
  induction pendingAcks with
  | nil => rfl
  | cons hd tl ih =>
    rw [getAwaitingOperation]
    have h1 : hd.packetId ≠ incomingPacketId := h hd (by simp)
    simp only [h1, if_false]
    rw [ih (fun b hb => h b (by simp [hb]))]

theorem getAwaitingOperation_first (pendingAcks : List AckInfo)
    (incomingPacketId : Nat) (j : Nat) (a : AckInfo) (c : Command)
    (hj : pendingAcks[j]? = some a) (hpid : a.packetId = incomingPacketId)
    (hnz : incomingPacketId ≠ 0) (hc : a.pOriginalCommand = some c)
    (hfirst : ∀ k b, k < j → pendingAcks[k]? = some b →
      b.packetId ≠ incomingPacketId) :
    getAwaitingOperation pendingAcks incomingPacketId = some (j, a) := by
  induction pendingAcks generalizing j with
  | nil => simp at hj
  | cons hd tl ih =>
    cases j with
    | zero =>
      have hhd : hd = a := by
        simpa using hj
      rw [getAwaitingOperation, hhd]
      rw [if_pos hpid]
      have hcond : ¬(a.pOriginalCommand = none ∨ a.packetId = 0) := by
        push_neg
        exact ⟨by simp [hc], by rw [hpid]; exact hnz⟩
      rw [if_neg hcond]
    | succ n =>
      simp only [List.getElem?_cons_succ] at hj
      have hhd : hd.packetId ≠ incomingPacketId :=
        hfirst 0 hd (Nat.succ_pos n) (by simp)
      rw [getAwaitingOperation]
      rw [if_neg hhd]
      rw [ih n hj (fun k b hk hb => hfirst (k + 1) b (by omega) (by simpa using hb))]

theorem addAwaitingOperation_eq_none (pendingAcks : List AckInfo)
    (packetId : Nat) (pCommand : Option Command)
    (h : ∀ a ∈ pendingAcks, a.packetId ≠ 0) :
    addAwaitingOperation pendingAcks packetId pCommand = none := by
  induction pendingAcks with
  | nil => rfl
  | cons hd tl ih =>
    rw [addAwaitingOperation]
    have h1 : hd.packetId ≠ MQTT_PACKET_ID_INVALID := h hd (by simp)
    simp only [h1, if_false]
    rw [ih (fun a ha => h a (by simp [ha]))]

theorem addAwaitingOperation_mem (pendingAcks : List AckInfo) (packetId : Nat)
    (pCommand : Option Command) (table' : List AckInfo)
    (h : addAwaitingOperation pendingAcks packetId pCommand = some table') :
    ∀ a ∈ table', a ∈ pendingAcks ∨
      a = { packetId := packetId, pOriginalCommand := pCommand } := by
  induction pendingAcks generalizing table' with
  | nil => simp [addAwaitingOperation] at h
  | cons hd tl ih =>
    rw [addAwaitingOperation] at h
    by_cases h1 : hd.packetId = MQTT_PACKET_ID_INVALID
    · simp only [h1, if_true, Option.some_inj] at h
      subst h
      intro a ha
      rcases List.mem_cons.mp ha with h2 | h2
      · right; exact h2
      · left; exact List.mem_cons_of_mem _ h2
    · simp only [h1, if_false] at h
      cases hrec : addAwaitingOperation tl packetId pCommand with
      | none => rw [hrec] at h; simp at h
      | some rest' =>
        rw [hrec] at h
        simp only [Option.some_inj] at h
        subst h
        intro a ha
        rcases List.mem_cons.mp ha with h2 | h2
        · left; simp [h2]
        · rcases ih rest' hrec a h2 with h3 | h3
          · left; exact List.mem_cons_of_mem _ h3
          · right; exact h3

theorem addAwaitingOperation_cmdOccurrences (pendingAcks : List AckInfo)
    (packetId : Nat) (cmd : Command) (table' : List AckInfo)
    (h : addAwaitingOperation pendingAcks packetId (some cmd) = some table')
    (h0 : cmdOccurrences pendingAcks cmd.cmdId = 0) :
    cmdOccurrences table' cmd.cmdId = 1 := by
  induction pendingAcks generalizing table' with
  | nil => simp [addAwaitingOperation] at h
  | cons hd tl ih =>
    rw [addAwaitingOperation] at h
    rw [cmdOccurrences, List.countP_cons] at h0
    by_cases h1 : hd.packetId = MQTT_PACKET_ID_INVALID
    · simp only [h1, if_true, Option.some_inj] at h
      subst h
      rw [cmdOccurrences, List.countP_cons]
      simp only [decide_eq_true_eq]
      have : cmdOccurrences tl cmd.cmdId = 0 := by
        rw [cmdOccurrences]; omega
      rw [cmdOccurrences] at this
      simp [this]
    · simp only [h1, if_false] at h
      cases hrec : addAwaitingOperation tl packetId (some cmd) with
      | none => rw [hrec] at h; simp at h
      | some rest' =>
        rw [hrec] at h
        simp only [Option.some_inj] at h
        subst h
        rw [cmdOccurrences, List.countP_cons]
        have htl : cmdOccurrences tl cmd.cmdId = 0 := by
          rw [cmdOccurrences]; omega
        have := ih rest' hrec htl
        rw [cmdOccurrences] at this
        rw [this]
        omega

theorem addAwaitingOperation_pidOccurrences (pendingAcks : List AckInfo)
    (packetId : Nat) (pCommand : Option Command) (table' : List AckInfo)
    (q : Nat)
    (h : addAwaitingOperation pendingAcks packetId pCommand = some table')
    (hq : q ≠ 0) :
    pidOccurrences table' q =
      pidOccurrences pendingAcks q + (if q = packetId then 1 else 0) := by
  induction pendingAcks generalizing table' with
  | nil => simp [addAwaitingOperation] at h
  | cons hd tl ih =>
    rw [addAwaitingOperation] at h
    by_cases h1 : hd.packetId = MQTT_PACKET_ID_INVALID
    · simp only [h1, if_true, Option.some_inj] at h
      subst h
      rw [pidOccurrences, pidOccurrences, List.countP_cons, List.countP_cons]
      have hhd : ¬(hd.packetId = q) := by
        rw [h1]; exact fun hx => hq hx.symm
      simp only [decide_eq_true_eq, hhd, if_false]
      by_cases h2 : q = packetId
      · simp [h2]
      · have : ¬(packetId = q) := fun hx => h2 hx.symm
        simp [this, h2]
    · simp only [h1, if_false] at h
      cases hrec : addAwaitingOperation tl packetId pCommand with
      | none => rw [hrec] at h; simp at h
      | some rest' =>
        rw [hrec] at h
        simp only [Option.some_inj] at h
        subst h
        rw [pidOccurrences, pidOccurrences, List.countP_cons, List.countP_cons]
        have := ih rest' hrec
        rw [pidOccurrences, pidOccurrences] at this
        rw [this]
        omega

theorem mqttEventCallback_cases (pendingAcks : List AckInfo)
    (packet : IncomingPacket) :
    ((mqttEventCallback pendingAcks packet).pendingAcks = pendingAcks ∧
      ∀ cmdId, callbackCount (mqttEventCallback pendingAcks packet).events cmdId = 0) ∨
    ∃ idx a c,
      getAwaitingOperation pendingAcks packet.packetIdentifier = some (idx, a) ∧
      a.pOriginalCommand = some c ∧
      (mqttEventCallback pendingAcks packet).pendingAcks =
        pendingAcks.set idx emptyAck ∧
      (mqttEventCallback pendingAcks packet).events =
        (if c.hasCallback then
           [AgentEvent.CallbackInvoked c.cmdId
             { returnCode := packet.deserializationResult,
               pSubackCodes :=
                 if packet.packetType = MQTT_PACKET_TYPE_SUBACK then
                   some (packet.pRemainingData + 2)
                 else none }]
         else []) ++ [AgentEvent.CommandReleased c.cmdId] := by
  rw [mqttEventCallback]
  by_cases h1 : packet.packetType &&& 0xF0 = MQTT_PACKET_TYPE_PUBLISH
  · rw [if_pos h1]
    left
    exact ⟨rfl, fun cmdId => by simp [callbackCount]⟩
  · rw [if_neg h1]
    by_cases h2 : packet.packetType = MQTT_PACKET_TYPE_PUBACK ∨
        packet.packetType = MQTT_PACKET_TYPE_PUBCOMP ∨
        packet.packetType = MQTT_PACKET_TYPE_SUBACK ∨
        packet.packetType = MQTT_PACKET_TYPE_UNSUBACK
    · rw [if_pos h2]
      cases hga : getAwaitingOperation pendingAcks packet.packetIdentifier with
      | none =>
        left
        exact ⟨rfl, fun cmdId => by simp [callbackCount]⟩
      | some pair =>
        obtain ⟨idx, a⟩ := pair
        cases hcmd : a.pOriginalCommand with
        | none =>
          left
          refine ⟨?_, fun cmdId => ?_⟩
          · simp only [hcmd]
          · simp only [hcmd]
            simp [callbackCount]
        | some c =>
          right
          refine ⟨idx, a, c, rfl, hcmd, ?_, ?_⟩
          · simp only [hcmd]
            rfl
          · simp only [hcmd]
            rfl
    · rw [if_neg h2]
      left
      exact ⟨rfl, fun cmdId => by simp [callbackCount]⟩

theorem callbackCount_append (events₁ events₂ : List AgentEvent) (cmdId : Nat) :
    callbackCount (events₁ ++ events₂) cmdId =
      callbackCount events₁ cmdId + callbackCount events₂ cmdId := by
  simp [callbackCount, List.countP_append]

/-- One `mqttEventCallback` step preserves callback-readiness and the sum
"callbacks fired so far plus still-parked occurrences" for any command
identity. -/
theorem mqttEventCallback_count (pendingAcks : List AckInfo)
    (packet : IncomingPacket) (cmdId : Nat)
    (hready : callbackReady pendingAcks cmdId) :
    callbackCount (mqttEventCallback pendingAcks packet).events cmdId +
      cmdOccurrences (mqttEventCallback pendingAcks packet).pendingAcks cmdId =
      cmdOccurrences pendingAcks cmdId ∧
    callbackReady (mqttEventCallback pendingAcks packet).pendingAcks cmdId := by
  rcases mqttEventCallback_cases pendingAcks packet with
    ⟨htable, hcount⟩ | ⟨idx, a, c, hga, hcmd, htable, hevents⟩
  · rw [htable, hcount cmdId]
    exact ⟨by omega, hready⟩
  · obtain ⟨hget, -, -, -⟩ :=
      getAwaitingOperation_eq_some pendingAcks packet.packetIdentifier idx a hga
    have hset := countP_set_add
      (fun x : AckInfo =>
        match x.pOriginalCommand with
        | some cc => decide (cc.cmdId = cmdId)
        | none => false)
      pendingAcks idx a emptyAck hget
    have hempty :
        (fun x : AckInfo =>
          match x.pOriginalCommand with
          | some cc => decide (cc.cmdId = cmdId)
          | none => false) emptyAck = false := by
      simp [emptyAck]
    rw [hempty] at hset
    simp only [hcmd] at hset
    constructor
    · rw [htable, hevents, callbackCount_append]
      by_cases hid : c.cmdId = cmdId
      · have hcb : c.hasCallback = true :=
          hready a (List.getElem?_mem hget) c hcmd hid
        simp only [hid, decide_True] at hset
        have hc1 : callbackCount
            ((if c.hasCallback then
               [AgentEvent.CallbackInvoked c.cmdId
                 { returnCode := packet.deserializationResult,
                   pSubackCodes :=
                     if packet.packetType = MQTT_PACKET_TYPE_SUBACK then
                       some (packet.pRemainingData + 2)
                     else none }]
             else []) : List AgentEvent) cmdId = 1 := by
          rw [hcb]
          simp [callbackCount, hid]
        rw [hc1]
        have hc2 : callbackCount [AgentEvent.CommandReleased c.cmdId] cmdId = 0 := by
          simp [callbackCount]
        rw [hc2]
        rw [cmdOccurrences, cmdOccurrences]
        simp only [eq_self_iff_true, if_true, Bool.false_eq_true, if_false] at hset
        omega
      · have hdec : decide (c.cmdId = cmdId) = false := by
          simp [hid]
        simp only [hdec] at hset
        have hc1 : callbackCount
            ((if c.hasCallback then
               [AgentEvent.CallbackInvoked c.cmdId
                 { returnCode := packet.deserializationResult,
                   pSubackCodes :=
                     if packet.packetType = MQTT_PACKET_TYPE_SUBACK then
                       some (packet.pRemainingData + 2)
                     else none }]
             else []) : List AgentEvent) cmdId = 0 := by
          by_cases hcb : c.hasCallback
          · rw [if_pos hcb]
            simp [callbackCount, hid]
          · rw [if_neg hcb]
            simp [callbackCount]
        rw [hc1]
        have hc2 : callbackCount [AgentEvent.CommandReleased c.cmdId] cmdId = 0 := by
          simp [callbackCount]
        rw [hc2]
        rw [cmdOccurrences, cmdOccurrences]
        simp only [Bool.false_eq_true, if_false] at hset
        omega
    · rw [htable]
      intro x hx cc hccx hccid
      rcases List.mem_or_eq_of_mem_set hx with hx' | hx'
      · exact hready x hx' cc hccx hccid
      · rw [hx'] at hccx
        simp [emptyAck] at hccx

/-- A run of incoming packets preserves callback-readiness and the sum
"callbacks fired plus still-parked occurrences". -/
theorem runIncoming_count (packets : List IncomingPacket)
    (pendingAcks : List AckInfo) (cmdId : Nat)
    (hready : callbackReady pendingAcks cmdId) :
    callbackCount (runIncoming pendingAcks packets).2 cmdId +
      cmdOccurrences (runIncoming pendingAcks packets).1 cmdId =
      cmdOccurrences pendingAcks cmdId ∧
    callbackReady (runIncoming pendingAcks packets).1 cmdId := by
  induction packets generalizing pendingAcks with
  | nil => exact ⟨by simp [runIncoming, callbackCount], hready⟩
  | cons packet rest ih =>
    obtain ⟨hsum, hready'⟩ := mqttEventCallback_count pendingAcks packet cmdId hready
    obtain ⟨hsum', hready''⟩ :=
      ih (mqttEventCallback pendingAcks packet).pendingAcks hready'
    rw [runIncoming]
    cases hrun : runIncoming (mqttEventCallback pendingAcks packet).pendingAcks rest with
    | mk table' events' =>
      rw [hrun] at hsum' hready''
      constructor
      · rw [callbackCount_append]
        simp only at hsum' hready'' ⊢
        omega
      · exact hready''

theorem callbackReady_of_zero (pendingAcks : List AckInfo) (cmdId : Nat)
    (h : cmdOccurrences pendingAcks cmdId = 0) :
    callbackReady pendingAcks cmdId := by
  intro a ha c hc hcid
  exfalso
  have hnp := List.countP_eq_zero.mp h a ha
  apply hnp
  simp [hc, hcid]

/-- After `processCommand` on a command not yet parked anywhere, the number
of completion callbacks fired for it plus the number of slots still parking
it equals exactly one, and the resulting table remains callback-ready for
it. -/
theorem processCommand_callback_once (pendingAcks : List AckInfo) (c : Command)
    (handlerStatus : MQTTStatus) (flags : CommandFuncReturns)
    (incomingPackets : List IncomingPacket) (processLoopStatus : MQTTStatus)
    (hno : cmdOccurrences pendingAcks c.cmdId = 0)
    (hcb : c.hasCallback = true) :
    callbackCount (processCommand pendingAcks (some c) handlerStatus flags
        incomingPackets processLoopStatus).events c.cmdId +
      cmdOccurrences (processCommand pendingAcks (some c) handlerStatus flags
        incomingPackets processLoopStatus).pendingAcks c.cmdId = 1 ∧
    callbackReady (processCommand pendingAcks (some c) handlerStatus flags
        incomingPackets processLoopStatus).pendingAcks c.cmdId := by
  have hready : callbackReady pendingAcks c.cmdId :=
    callbackReady_of_zero pendingAcks c.cmdId hno
  by_cases hcond : handlerStatus = MQTTSuccess ∧ flags.addAcknowledgment = true
  · cases hadd : addAwaitingOperation pendingAcks flags.packetId (some c) with
    | some table₁ =>
      -- the ack was parked: no synchronous completion; the command sits in
      -- exactly one slot, and any process-loop deliveries preserve the sum
      have h1 : cmdOccurrences table₁ c.cmdId = 1 :=
        addAwaitingOperation_cmdOccurrences pendingAcks flags.packetId c table₁
          hadd hno
      have hready₁ : callbackReady table₁ c.cmdId := by
        intro a ha cc hcc hccid
        rcases addAwaitingOperation_mem pendingAcks flags.packetId (some c)
            table₁ hadd a ha with ha' | ha'
        · exact hready a ha' cc hcc hccid
        · rw [ha'] at hcc
          simp only [AckInfo.mk.injEq] at hcc
          have : cc = c := Option.some_inj.mp hcc.symm
          rw [this]
          exact hcb
      have hcount := runIncoming_count incomingPackets table₁ c.cmdId hready₁
      simp only [processCommand, hcond.1, hcond.2, and_self, if_true, hadd,
        true_and]
      by_cases hrpl : flags.runProcessLoop = true
      · simp only [hrpl, and_self, if_true]
        cases hrun : runIncoming table₁ incomingPackets with
        | mk table₂ loopEvents =>
          rw [hrun] at hcount
          simp only at hcount
          refine ⟨?_, hcount.2⟩
          simp only [eq_self_iff_true, if_true, Bool.false_eq_true, if_false,
            List.nil_append]
          rw [h1] at hcount
          exact hcount.1
      · simp only [hrpl, if_false]
        refine ⟨?_, hready₁⟩
        simp [callbackCount, h1]
    | none =>
      -- reservation failed: the command completes synchronously with
      -- MQTTNoMemory and the table is unchanged
      simp only [processCommand, hcond.1, hcond.2, and_self, if_true, hadd]
      have hns : ¬(MQTTNoMemory = MQTTSuccess ∧ flags.runProcessLoop = true) := by
        intro hx
        exact absurd hx.1 (by simp)
      simp only [hns, if_false]
      refine ⟨?_, hready⟩
      rw [hcb]
      simp [callbackCount, hno]
  · -- no ack requested (or handler failed): the command completes
    -- synchronously with the handler status
    simp only [processCommand, hcond, if_false]
    by_cases hrun : handlerStatus = MQTTSuccess ∧ flags.runProcessLoop = true
    · simp only [hrun, and_self, if_true]
      have hcount := runIncoming_count incomingPackets pendingAcks c.cmdId hready
      cases hrunq : runIncoming pendingAcks incomingPackets with
      | mk table₂ loopEvents =>
        rw [hrunq] at hcount
        simp only at hcount
        refine ⟨?_, hcount.2⟩
        rw [callbackCount_append, hcb]
        simp only [callbackCount, List.countP_cons, List.countP_nil,
          decide_True]
        rw [hno] at hcount
        have h2 := hcount.1
        simp only [callbackCount] at h2
        simp
        omega
    · simp only [hrun, if_false]
      refine ⟨?_, hready⟩
      rw [hcb]
      simp [callbackCount, hno]

/-- C1: for every command that enters the agent's command loop, its
completion callback is invoked exactly once: either synchronously from
`processCommand` (when the handler fails or no acknowledgment is parked) or
asynchronously from the ack-correlation path (`mqttEventCallback` /
`handleAcks`) once the matching acknowledgment is delivered — never from
both paths and never a second time.  Formally: the number of callbacks fired
for the command plus the number of pending-ack slots still parking it is
exactly one after `processCommand`, and stays exactly one across every
further sequence of incoming packets handled by the event callback. -/
theorem command_completion_exactly_once (pendingAcks : List AckInfo)
    (c : Command) (handlerStatus : MQTTStatus) (flags : CommandFuncReturns)
    (incomingPackets : List IncomingPacket) (processLoopStatus : MQTTStatus)
    (hno : cmdOccurrences pendingAcks c.cmdId = 0)
    (hcb : c.hasCallback = true) :
    callbackCount (processCommand pendingAcks (some c) handlerStatus flags
        incomingPackets processLoopStatus).events c.cmdId +
      cmdOccurrences (processCommand pendingAcks (some c) handlerStatus flags
        incomingPackets processLoopStatus).pendingAcks c.cmdId = 1 ∧
    ∀ morePackets : List IncomingPacket,
      callbackCount ((processCommand pendingAcks (some c) handlerStatus flags
          incomingPackets processLoopStatus).events ++
        (runIncoming (processCommand pendingAcks (some c) handlerStatus flags
          incomingPackets processLoopStatus).pendingAcks morePackets).2) c.cmdId +
      cmdOccurrences (runIncoming (processCommand pendingAcks (some c)
          handlerStatus flags incomingPackets processLoopStatus).pendingAcks
        morePackets).1 c.cmdId = 1 := by
  obtain ⟨hsum, hready⟩ := processCommand_callback_once pendingAcks c
    handlerStatus flags incomingPackets processLoopStatus hno hcb
  refine ⟨hsum, fun morePackets => ?_⟩
  obtain ⟨hsum', -⟩ := runIncoming_count morePackets
    (processCommand pendingAcks (some c) handlerStatus flags incomingPackets
      processLoopStatus).pendingAcks c.cmdId hready
  rw [callbackCount_append]
  omega

theorem command_completion_exactly_once_witness :
    cmdOccurrences [emptyAck, emptyAck] 1 = 0 ∧
    callbackCount (processCommand [emptyAck, emptyAck]
        (some { cmdId := 1, commandType := CommandType.PUBLISH,
                pubInfo := none, hasCallback := true })
        MQTTSuccess
        { packetId := 7, addAcknowledgment := true, runProcessLoop := false,
          endLoop := false } [] MQTTSuccess).events 1 +
      cmdOccurrences (processCommand [emptyAck, emptyAck]
        (some { cmdId := 1, commandType := CommandType.PUBLISH,
                pubInfo := none, hasCallback := true })
        MQTTSuccess
        { packetId := 7, addAcknowledgment := true, runProcessLoop := false,
          endLoop := false } [] MQTTSuccess).pendingAcks 1 = 1 :=
  ⟨by decide,
    (command_completion_exactly_once [emptyAck, emptyAck]
      { cmdId := 1, commandType := CommandType.PUBLISH,
        pubInfo := none, hasCallback := true }
      MQTTSuccess
      { packetId := 7, addAcknowledgment := true, runProcessLoop := false,
        endLoop := false } [] MQTTSuccess (by decide) (by decide)).1⟩

/-- C3: when a handler returns `MQTTSuccess` with `addAcknowledgment` set
but every pending-ack slot is occupied, `processCommand` turns the status
into `MQTTNoMemory`, invokes the command's completion callback with
`MQTTNoMemory`, releases the command, leaves the table unchanged, and sets
the end-loop flag because the status is no longer success. -/
theorem ack_reservation_failure_no_memory (pendingAcks : List AckInfo)
    (c : Command) (flags : CommandFuncReturns)
    (incomingPackets : List IncomingPacket) (processLoopStatus : MQTTStatus)
    (hfull : ∀ a ∈ pendingAcks, a.packetId ≠ 0)
    (hack : flags.addAcknowledgment = true)
    (hcb : c.hasCallback = true) :
    (processCommand pendingAcks (some c) MQTTSuccess flags incomingPackets
        processLoopStatus).status = MQTTNoMemory ∧
    (processCommand pendingAcks (some c) MQTTSuccess flags incomingPackets
        processLoopStatus).events =
      [AgentEvent.CallbackInvoked c.cmdId
        { returnCode := MQTTNoMemory, pSubackCodes := none },
       AgentEvent.CommandReleased c.cmdId] ∧
    (processCommand pendingAcks (some c) MQTTSuccess flags incomingPackets
        processLoopStatus).pendingAcks = pendingAcks ∧
    (processCommand pendingAcks (some c) MQTTSuccess flags incomingPackets
        processLoopStatus).endLoop = true := by
  have hadd : addAwaitingOperation pendingAcks flags.packetId (some c) = none :=
    addAwaitingOperation_eq_none pendingAcks flags.packetId (some c) hfull
  have hns : ¬(MQTTNoMemory = MQTTSuccess ∧ flags.runProcessLoop = true) := by
    intro hx
    exact absurd hx.1 (by simp)
  simp [processCommand, hack, hadd, hns, hcb]

theorem ack_reservation_failure_no_memory_witness :
    (∀ a ∈ [({ packetId := 9,
               pOriginalCommand := some { cmdId := 2,
                                          commandType := CommandType.SUBSCRIBE,
                                          pubInfo := none,
                                          hasCallback := true } } : AckInfo)],
       a.packetId ≠ 0) ∧
    (processCommand
        [{ packetId := 9,
           pOriginalCommand := some { cmdId := 2,
                                      commandType := CommandType.SUBSCRIBE,
                                      pubInfo := none, hasCallback := true } }]
        (some { cmdId := 1, commandType := CommandType.PUBLISH,
                pubInfo := none, hasCallback := true })
        MQTTSuccess
        { packetId := 7, addAcknowledgment := true, runProcessLoop := true,
          endLoop := false } [] MQTTSuccess).status = MQTTNoMemory :=
  ⟨by decide,
    (ack_reservation_failure_no_memory
      [{ packetId := 9,
         pOriginalCommand := some { cmdId := 2,
                                    commandType := CommandType.SUBSCRIBE,
                                    pubInfo := none, hasCallback := true } }]
      { cmdId := 1, commandType := CommandType.PUBLISH, pubInfo := none,
        hasCallback := true }
      { packetId := 7, addAcknowledgment := true, runProcessLoop := true,
        endLoop := false } [] MQTTSuccess (by decide) (by decide)
      (by decide)).1⟩

/-- C2: an incoming PUBACK / PUBCOMP / SUBACK / UNSUBACK whose packet id
matches an occupied pending-ack slot holding a non-null originating command
completes that command — invoking its callback with the deserialization
status, with suback codes at `pRemainingData + 2` for SUBACK only and null
otherwise — releases the command, and zeroes the slot; when no slot holds
the packet id, the table is left unchanged and no event is emitted. -/
theorem ack_correlation_completes_command (pendingAcks : List AckInfo)
    (packet : IncomingPacket) (j : Nat) (a : AckInfo) (c : Command)
    (htype : packet.packetType = MQTT_PACKET_TYPE_PUBACK ∨
      packet.packetType = MQTT_PACKET_TYPE_PUBCOMP ∨
      packet.packetType = MQTT_PACKET_TYPE_SUBACK ∨
      packet.packetType = MQTT_PACKET_TYPE_UNSUBACK)
    (hj : pendingAcks[j]? = some a)
    (hpid : a.packetId = packet.packetIdentifier)
    (hnz : packet.packetIdentifier ≠ 0)
    (hc : a.pOriginalCommand = some c)
    (huniq : ∀ k b, pendingAcks[k]? = some b →
      b.packetId = packet.packetIdentifier → k = j) :
    (mqttEventCallback pendingAcks packet).pendingAcks =
      pendingAcks.set j emptyAck ∧
    (mqttEventCallback pendingAcks packet).events =
      (if c.hasCallback then
         [AgentEvent.CallbackInvoked c.cmdId
           { returnCode := packet.deserializationResult,
             pSubackCodes :=
               if packet.packetType = MQTT_PACKET_TYPE_SUBACK then
                 some (packet.pRemainingData + 2)
               else none }]
       else []) ++ [AgentEvent.CommandReleased c.cmdId] ∧
    ∀ otherTable : List AckInfo,
      (∀ b ∈ otherTable, b.packetId ≠ packet.packetIdentifier) →
      (mqttEventCallback otherTable packet).pendingAcks = otherTable ∧
      (mqttEventCallback otherTable packet).events = [] := by
  have hnib : ¬(packet.packetType &&& 0xF0 = MQTT_PACKET_TYPE_PUBLISH) := by
    rcases htype with h | h | h | h <;> rw [h] <;> decide
  have hfirst : ∀ k b, k < j → pendingAcks[k]? = some b →
      b.packetId ≠ packet.packetIdentifier := by
    intro k b hk hb hpb
    exact absurd (huniq k b hb hpb) (by omega)
  have hga : getAwaitingOperation pendingAcks packet.packetIdentifier =
      some (j, a) :=
    getAwaitingOperation_first pendingAcks packet.packetIdentifier j a c hj
      hpid hnz hc hfirst
  refine ⟨?_, ?_, ?_⟩
  · rw [mqttEventCallback, if_neg hnib, if_pos htype, hga]
    simp only [hc]
    rfl
  · rw [mqttEventCallback, if_neg hnib, if_pos htype, hga]
    simp only [hc]
    rfl
  · intro otherTable hnone
    have hga2 : getAwaitingOperation otherTable packet.packetIdentifier = none :=
      getAwaitingOperation_eq_none otherTable packet.packetIdentifier hnone
    rw [mqttEventCallback, if_neg hnib, if_pos htype, hga2]
    exact ⟨rfl, rfl⟩

theorem ack_correlation_completes_command_witness :
    (mqttEventCallback
        [{ packetId := 7,
           pOriginalCommand := some { cmdId := 4,
                                      commandType := CommandType.PUBLISH,
                                      pubInfo := none, hasCallback := true } }]
        { packetType := MQTT_PACKET_TYPE_PUBACK, pRemainingData := 100,
          packetIdentifier := 7,
          deserializationResult := MQTTSuccess }).pendingAcks = [emptyAck] ∧
    (mqttEventCallback
        [{ packetId := 7,
           pOriginalCommand := some { cmdId := 4,
                                      commandType := CommandType.PUBLISH,
                                      pubInfo := none, hasCallback := true } }]
        { packetType := MQTT_PACKET_TYPE_PUBACK, pRemainingData := 100,
          packetIdentifier := 7,
          deserializationResult := MQTTSuccess }).events =
      [AgentEvent.CallbackInvoked 4
        { returnCode := MQTTSuccess, pSubackCodes := none },
       AgentEvent.CommandReleased 4] := by
  have h := ack_correlation_completes_command
    [{ packetId := 7,
       pOriginalCommand := some { cmdId := 4,
                                  commandType := CommandType.PUBLISH,
                                  pubInfo := none, hasCallback := true } }]
    { packetType := MQTT_PACKET_TYPE_PUBACK, pRemainingData := 100,
      packetIdentifier := 7, deserializationResult := MQTTSuccess }
    0
    { packetId := 7,
      pOriginalCommand := some { cmdId := 4,
                                 commandType := CommandType.PUBLISH,
                                 pubInfo := none, hasCallback := true } }
    { cmdId := 4, commandType := CommandType.PUBLISH, pubInfo := none,
      hasCallback := true }
    (by decide) (by decide) (by decide) (by decide) (by decide)
    (fun k b hb hpid => by
      cases k with
      | zero => rfl
      | succ n => simp at hb)
  refine ⟨?_, ?_⟩
  · rw [h.1]
    rfl
  · rw [h.2.1]
    rfl

/-- C9: `MQTTAgent_ResumeSession` returns `MQTTBadParameter` with the
context (and so the pending-ack table) unchanged and no callbacks whenever
the context pointer is NULL or the MQTT client is uninitialized
(`nextPacketId == 0`), regardless of the session-present argument. -/
theorem resume_session_uninitialized_bad_parameter
    (pContext : Option AgentState) (sessionPresent : Bool)
    (resendIds : List Nat) (publishStatus : Nat → MQTTStatus)
    (h : pContext = none ∨ ∃ s, pContext = some s ∧ s.nextPacketId = 0) :
    MQTTAgent_ResumeSession pContext sessionPresent resendIds publishStatus =
      (MQTTBadParameter, pContext, []) := by
  rcases h with h | ⟨s, hs, h0⟩
  · rw [h]
    rfl
  · rw [hs, MQTTAgent_ResumeSession]
    have : ¬(s.nextPacketId ≠ MQTT_PACKET_ID_INVALID) := by
      rw [h0]
      simp [MQTT_PACKET_ID_INVALID]
    rw [if_neg this]

theorem resume_session_uninitialized_bad_parameter_witness :
    MQTTAgent_ResumeSession (some { nextPacketId := 0, pendingAcks := [] })
        true [] (fun _ => MQTTSuccess) =
      (MQTTBadParameter, some { nextPacketId := 0, pendingAcks := [] }, []) :=
  resume_session_uninitialized_bad_parameter
    (some { nextPacketId := 0, pendingAcks := [] }) true []
    (fun _ => MQTTSuccess)
    (Or.inr ⟨{ nextPacketId := 0, pendingAcks := [] }, rfl, rfl⟩)

/-- C10: looking up packet id 0 (the invalid sentinel) never returns a
command — an empty slot may match the scan, but the subsequent check
rejects a found slot whose packet id is 0 — so an incoming PUBACK / PUBCOMP
/ SUBACK / UNSUBACK carrying packet id 0 never completes nor releases any
command and never modifies the table.  This holds for every table, so in
particular for every table whose occupied slots avoid packet id 0. -/
theorem packet_id_zero_never_completes (pendingAcks : List AckInfo)
    (pRemainingData : Nat) (deserializationResult : MQTTStatus) :
    getAwaitingOperation pendingAcks 0 = none ∧
    ((mqttEventCallback pendingAcks
        { packetType := MQTT_PACKET_TYPE_PUBACK,
          pRemainingData := pRemainingData, packetIdentifier := 0,
          deserializationResult := deserializationResult }).pendingAcks =
        pendingAcks ∧
      (mqttEventCallback pendingAcks
        { packetType := MQTT_PACKET_TYPE_PUBACK,
          pRemainingData := pRemainingData, packetIdentifier := 0,
          deserializationResult := deserializationResult }).events = []) ∧
    ((mqttEventCallback pendingAcks
        { packetType := MQTT_PACKET_TYPE_PUBCOMP,
          pRemainingData := pRemainingData, packetIdentifier := 0,
          deserializationResult := deserializationResult }).pendingAcks =
        pendingAcks ∧
      (mqttEventCallback pendingAcks
        { packetType := MQTT_PACKET_TYPE_PUBCOMP,
          pRemainingData := pRemainingData, packetIdentifier := 0,
          deserializationResult := deserializationResult }).events = []) ∧
    ((mqttEventCallback pendingAcks
        { packetType := MQTT_PACKET_TYPE_SUBACK,
          pRemainingData := pRemainingData, packetIdentifier := 0,
          deserializationResult := deserializationResult }).pendingAcks =
        pendingAcks ∧
      (mqttEventCallback pendingAcks
        { packetType := MQTT_PACKET_TYPE_SUBACK,
          pRemainingData := pRemainingData, packetIdentifier := 0,
          deserializationResult := deserializationResult }).events = []) ∧
    ((mqttEventCallback pendingAcks
        { packetType := MQTT_PACKET_TYPE_UNSUBACK,
          pRemainingData := pRemainingData, packetIdentifier := 0,
          deserializationResult := deserializationResult }).pendingAcks =
        pendingAcks ∧
      (mqttEventCallback pendingAcks
        { packetType := MQTT_PACKET_TYPE_UNSUBACK,
          pRemainingData := pRemainingData, packetIdentifier := 0,
          deserializationResult := deserializationResult }).events = []) := by
  have hga := getAwaitingOperation_zero pendingAcks
  refine ⟨hga, ?_, ?_, ?_, ?_⟩
  · rw [mqttEventCallback,
      if_neg (show ¬(MQTT_PACKET_TYPE_PUBACK &&& 0xF0 =
        MQTT_PACKET_TYPE_PUBLISH) by decide),
      if_pos (Or.inl (rfl :
        MQTT_PACKET_TYPE_PUBACK = MQTT_PACKET_TYPE_PUBACK)), hga]
    exact ⟨rfl, rfl⟩
  · rw [mqttEventCallback,
      if_neg (show ¬(MQTT_PACKET_TYPE_PUBCOMP &&& 0xF0 =
        MQTT_PACKET_TYPE_PUBLISH) by decide),
      if_pos (Or.inr (Or.inl (rfl :
        MQTT_PACKET_TYPE_PUBCOMP = MQTT_PACKET_TYPE_PUBCOMP))), hga]
    exact ⟨rfl, rfl⟩
  · rw [mqttEventCallback,
      if_neg (show ¬(MQTT_PACKET_TYPE_SUBACK &&& 0xF0 =
        MQTT_PACKET_TYPE_PUBLISH) by decide),
      if_pos (Or.inr (Or.inr (Or.inl (rfl :
        MQTT_PACKET_TYPE_SUBACK = MQTT_PACKET_TYPE_SUBACK)))), hga]
    exact ⟨rfl, rfl⟩
  · rw [mqttEventCallback,
      if_neg (show ¬(MQTT_PACKET_TYPE_UNSUBACK &&& 0xF0 =
        MQTT_PACKET_TYPE_PUBLISH) by decide),
      if_pos (Or.inr (Or.inr (Or.inr (rfl :
        MQTT_PACKET_TYPE_UNSUBACK = MQTT_PACKET_TYPE_UNSUBACK)))), hga]
    exact ⟨rfl, rfl⟩

theorem clearPendingAcknowledgments_all_zero (pendingAcks : List AckInfo) :
    ∀ a ∈ (clearPendingAcknowledgments pendingAcks).2, a.packetId = 0 := by
  induction pendingAcks with
  | nil => simp [clearPendingAcknowledgments]
  | cons hd tl ih =>
    cases hclear : clearPendingAcknowledgments tl with
    | mk events rest' =>
      rw [hclear] at ih
      rw [clearPendingAcknowledgments, hclear]
      dsimp only
      by_cases h1 : hd.packetId ≠ MQTT_PACKET_ID_INVALID
      · rw [if_pos h1]
        intro a ha
        rcases List.mem_cons.mp ha with ha' | ha'
        · rw [ha']
          rfl
        · exact ih a ha'
      · rw [if_neg h1]
        intro a ha
        rcases List.mem_cons.mp ha with ha' | ha'
        · rw [ha']
          simpa [MQTT_PACKET_ID_INVALID] using h1
        · exact ih a ha'

theorem clearPendingAcknowledgments_callback (pendingAcks : List AckInfo) :
    ∀ a ∈ pendingAcks, ∀ c, a.packetId ≠ 0 → a.pOriginalCommand = some c →
      c.hasCallback = true →
      AgentEvent.CallbackInvoked c.cmdId
          { returnCode := MQTTRecvFailed, pSubackCodes := none } ∈
        (clearPendingAcknowledgments pendingAcks).1 := by
  induction pendingAcks with
  | nil => simp
  | cons hd tl ih =>
    intro a ha c hnz hc hcb
    cases hclear : clearPendingAcknowledgments tl with
    | mk events rest' =>
      rw [hclear] at ih
      rw [clearPendingAcknowledgments, hclear]
      dsimp only
      rcases List.mem_cons.mp ha with ha' | ha'
      · rw [ha'] at hnz hc
        rw [if_pos (by simpa [MQTT_PACKET_ID_INVALID] using hnz)]
        simp [hc, hcb]
      · by_cases h1 : hd.packetId ≠ MQTT_PACKET_ID_INVALID
        · rw [if_pos h1]
          refine List.mem_append_right _ ?_
          exact ih a ha' c hnz hc hcb
        · rw [if_neg h1]
          exact ih a ha' c hnz hc hcb

theorem clearPendingAcknowledgments_noop (pendingAcks : List AckInfo)
    (h : ∀ a ∈ pendingAcks, a.packetId = 0) :
    clearPendingAcknowledgments pendingAcks = ([], pendingAcks) := by
  induction pendingAcks with
  | nil => rfl
  | cons hd tl ih =>
    rw [clearPendingAcknowledgments]
    rw [ih (fun a ha => h a (by simp [ha]))]
    dsimp only
    have h1 : ¬(hd.packetId ≠ MQTT_PACKET_ID_INVALID) := by
      simp [MQTT_PACKET_ID_INVALID, h hd (by simp)]
    rw [if_neg h1]

/-- C5: on an initialized context, `MQTTAgent_ResumeSession` with
`sessionPresent == false` invokes the completion callback with
`MQTTRecvFailed` for each occupied pending-ack slot whose originating
command has a callback, zeroes every occupied slot (afterwards every slot
has packet id 0), and a second such call on the resulting context is a
no-op returning the same context with no events — the operation is
idempotent. -/
theorem resume_no_session_clears_idempotent (s : AgentState)
    (resendIds resendIds₂ : List Nat)
    (publishStatus publishStatus₂ : Nat → MQTTStatus)
    (hinit : s.nextPacketId ≠ 0) :
    ∃ s' : AgentState,
      MQTTAgent_ResumeSession (some s) false resendIds publishStatus =
        (MQTTSuccess, some s',
          (clearPendingAcknowledgments s.pendingAcks).1) ∧
      s'.nextPacketId = s.nextPacketId ∧
      (∀ a ∈ s.pendingAcks, ∀ c, a.packetId ≠ 0 →
        a.pOriginalCommand = some c → c.hasCallback = true →
        AgentEvent.CallbackInvoked c.cmdId
            { returnCode := MQTTRecvFailed, pSubackCodes := none } ∈
          (clearPendingAcknowledgments s.pendingAcks).1) ∧
      (∀ a ∈ s'.pendingAcks, a.packetId = 0) ∧
      MQTTAgent_ResumeSession (some s') false resendIds₂ publishStatus₂ =
        (MQTTSuccess, some s', []) := by
  refine ⟨{ s with pendingAcks := (clearPendingAcknowledgments s.pendingAcks).2 },
    ?_, rfl, ?_, ?_, ?_⟩
  · rw [MQTTAgent_ResumeSession]
    rw [if_pos (by simpa [MQTT_PACKET_ID_INVALID] using hinit)]
    simp only [Bool.false_eq_true, if_false]
  · exact clearPendingAcknowledgments_callback s.pendingAcks
  · exact clearPendingAcknowledgments_all_zero s.pendingAcks
  · rw [MQTTAgent_ResumeSession]
    rw [if_pos (by simpa [MQTT_PACKET_ID_INVALID] using hinit)]
    simp only [Bool.false_eq_true, if_false]
    rw [clearPendingAcknowledgments_noop _
      (clearPendingAcknowledgments_all_zero s.pendingAcks)]

theorem resume_no_session_clears_idempotent_witness :
    (5 : Nat) ≠ 0 ∧
    ∃ s' : AgentState,
      MQTTAgent_ResumeSession
          (some { nextPacketId := 5,
                  pendingAcks := [{ packetId := 1,
                                    pOriginalCommand := some { cmdId := 8,
                                                               commandType := CommandType.SUBSCRIBE,
                                                               pubInfo := none,
                                                               hasCallback := true } }] })
          false [] (fun _ => MQTTSuccess) =
        (MQTTSuccess, some s',
          (clearPendingAcknowledgments
            [{ packetId := 1,
               pOriginalCommand := some { cmdId := 8,
                                          commandType := CommandType.SUBSCRIBE,
                                          pubInfo := none,
                                          hasCallback := true } }]).1) ∧
      s'.nextPacketId = 5 ∧
      (∀ a ∈ [({ packetId := 1,
                 pOriginalCommand := some { cmdId := 8,
                                            commandType := CommandType.SUBSCRIBE,
                                            pubInfo := none,
                                            hasCallback := true } } : AckInfo)],
        ∀ c, a.packetId ≠ 0 → a.pOriginalCommand = some c →
        c.hasCallback = true →
        AgentEvent.CallbackInvoked c.cmdId
            { returnCode := MQTTRecvFailed, pSubackCodes := none } ∈
          (clearPendingAcknowledgments
            [{ packetId := 1,
               pOriginalCommand := some { cmdId := 8,
                                          commandType := CommandType.SUBSCRIBE,
                                          pubInfo := none,
                                          hasCallback := true } }]).1) ∧
      (∀ a ∈ s'.pendingAcks, a.packetId = 0) ∧
      MQTTAgent_ResumeSession (some s') false [3] (fun _ => MQTTSendFailed) =
        (MQTTSuccess, some s', []) :=
  ⟨by decide,
    resume_no_session_clears_idempotent
      { nextPacketId := 5,
        pendingAcks := [{ packetId := 1,
                          pOriginalCommand := some { cmdId := 8,
                                                     commandType := CommandType.SUBSCRIBE,
                                                     pubInfo := none,
                                                     hasCallback := true } }] }
      [] [3] (fun _ => MQTTSuccess) (fun _ => MQTTSendFailed) (by decide)⟩

theorem concludeCommandAsError_callback (c : Command)
    (hcb : c.hasCallback = true) :
    AgentEvent.CallbackInvoked c.cmdId
        { returnCode := MQTTBadResponse, pSubackCodes := none } ∈
      concludeCommandAsError c := by
  rw [concludeCommandAsError, hcb]
  simp

theorem concludeCommandAsError_release (c : Command) :
    AgentEvent.CommandReleased c.cmdId ∈ concludeCommandAsError c := by
  rw [concludeCommandAsError]
  exact List.mem_append_right _ (by simp)

theorem concludeCommandAsError_info (c : Command) :
    ∀ ev ∈ concludeCommandAsError c, ∀ cmdId info,
      ev = AgentEvent.CallbackInvoked cmdId info →
      info = { returnCode := MQTTBadResponse, pSubackCodes := none } := by
  intro ev hev cmdId info heq
  rw [concludeCommandAsError] at hev
  rcases List.mem_append.mp hev with h | h
  · by_cases hcb : c.hasCallback = true
    · rw [if_pos hcb] at h
      simp only [List.mem_singleton] at h
      rw [heq] at h
      simp only [AgentEvent.CallbackInvoked.injEq] at h
      exact h.2
    · rw [if_neg hcb] at h
      simp at h
  · simp only [List.mem_singleton] at h
    rw [heq] at h
    simp at h

theorem drainCommandQueue_mem (queue : List Command) :
    ∀ c ∈ queue,
      (c.hasCallback = true →
        AgentEvent.CallbackInvoked c.cmdId
            { returnCode := MQTTBadResponse, pSubackCodes := none } ∈
          drainCommandQueue queue) ∧
      AgentEvent.CommandReleased c.cmdId ∈ drainCommandQueue queue := by
  induction queue with
  | nil => simp
  | cons hd tl ih =>
    intro c hc
    rw [drainCommandQueue]
    rcases List.mem_cons.mp hc with hc' | hc'
    · rw [hc']
      exact ⟨fun hcb => List.mem_append_left _
          (concludeCommandAsError_callback hd hcb),
        List.mem_append_left _ (concludeCommandAsError_release hd)⟩
    · exact ⟨fun hcb => List.mem_append_right _ ((ih c hc').1 hcb),
        List.mem_append_right _ (ih c hc').2⟩

theorem drainCommandQueue_info (queue : List Command) :
    ∀ ev ∈ drainCommandQueue queue, ∀ cmdId info,
      ev = AgentEvent.CallbackInvoked cmdId info →
      info = { returnCode := MQTTBadResponse, pSubackCodes := none } := by
  induction queue with
  | nil => simp [drainCommandQueue]
  | cons hd tl ih =>
    intro ev hev cmdId info heq
    rw [drainCommandQueue] at hev
    rcases List.mem_append.mp hev with h | h
    · exact concludeCommandAsError_info hd ev h cmdId info heq
    · exact ih ev h cmdId info heq

theorem drainPendingAcks_mem (pendingAcks : List AckInfo) :
    ∀ a ∈ pendingAcks, ∀ c, a.packetId ≠ 0 → a.pOriginalCommand = some c →
      (c.hasCallback = true →
        AgentEvent.CallbackInvoked c.cmdId
            { returnCode := MQTTBadResponse, pSubackCodes := none } ∈
          (drainPendingAcks pendingAcks).1) ∧
      AgentEvent.CommandReleased c.cmdId ∈ (drainPendingAcks pendingAcks).1 := by
  induction pendingAcks with
  | nil => simp
  | cons hd tl ih =>
    intro a ha c hnz hc
    cases hdrain : drainPendingAcks tl with
    | mk events rest' =>
      rw [hdrain] at ih
      rw [drainPendingAcks, hdrain]
      dsimp only
      rcases List.mem_cons.mp ha with ha' | ha'
      · rw [ha'] at hnz hc
        rw [if_pos (by simpa [MQTT_PACKET_ID_INVALID] using hnz)]
        rw [hc]
        exact ⟨fun hcb => List.mem_append_left _
            (concludeCommandAsError_callback c hcb),
          List.mem_append_left _ (concludeCommandAsError_release c)⟩
      · by_cases h1 : hd.packetId ≠ MQTT_PACKET_ID_INVALID
        · rw [if_pos h1]
          exact ⟨fun hcb => List.mem_append_right _ ((ih a ha' c hnz hc).1 hcb),
            List.mem_append_right _ (ih a ha' c hnz hc).2⟩
        · rw [if_neg h1]
          exact ih a ha' c hnz hc

theorem drainPendingAcks_all_empty (pendingAcks : List AckInfo)
    (h : ∀ a ∈ pendingAcks, a.packetId = 0 → a = emptyAck) :
    ∀ a ∈ (drainPendingAcks pendingAcks).2, a = emptyAck := by
  induction pendingAcks with
  | nil => simp [drainPendingAcks]
  | cons hd tl ih =>
    cases hdrain : drainPendingAcks tl with
    | mk events rest' =>
      have ih' := ih (fun a ha h0 => h a (by simp [ha]) h0)
      rw [hdrain] at ih'
      rw [drainPendingAcks, hdrain]
      dsimp only
      by_cases h1 : hd.packetId ≠ MQTT_PACKET_ID_INVALID
      · rw [if_pos h1]
        intro a ha
        rcases List.mem_cons.mp ha with ha' | ha'
        · exact ha'
        · exact ih' a ha'
      · rw [if_neg h1]
        intro a ha
        rcases List.mem_cons.mp ha with ha' | ha'
        · rw [ha']
          exact h hd (by simp) (by simpa [MQTT_PACKET_ID_INVALID] using h1)
        · exact ih' a ha'

theorem drainPendingAcks_info (pendingAcks : List AckInfo) :
    ∀ ev ∈ (drainPendingAcks pendingAcks).1, ∀ cmdId info,
      ev = AgentEvent.CallbackInvoked cmdId info →
      info = { returnCode := MQTTBadResponse, pSubackCodes := none } := by
  induction pendingAcks with
  | nil => simp [drainPendingAcks]
  | cons hd tl ih =>
    cases hdrain : drainPendingAcks tl with
    | mk events rest' =>
      rw [hdrain] at ih
      rw [drainPendingAcks, hdrain]
      dsimp only
      intro ev hev cmdId info heq
      by_cases h1 : hd.packetId ≠ MQTT_PACKET_ID_INVALID
      · rw [if_pos h1] at hev
        rcases List.mem_append.mp hev with hm | hm
        · cases hcmd : hd.pOriginalCommand with
          | none =>
            rw [hcmd] at hm
            simp at hm
          | some c =>
            rw [hcmd] at hm
            exact concludeCommandAsError_info c ev hm cmdId info heq
        · exact ih ev hm cmdId info heq
      · rw [if_neg h1] at hev
        exact ih ev hev cmdId info heq

/-- C4: processing a Terminate command drains every command still in the
message queue and every occupied pending-ack slot, completing each drained
and parked command with `MQTTBadResponse` via its callback (when present)
and releasing it, leaves the pending-ack table fully zeroed, returns
`MQTTSuccess` with the end-loop flag set, so `processCommand` on the
Terminate command reports status `MQTTSuccess` and ends the loop — the
command loop exits with success. -/
theorem terminate_cancels_everything (queue : List Command)
    (pendingAcks : List AckInfo)
    (hzero : ∀ a ∈ pendingAcks, a.packetId = 0 → a = emptyAck) :
    (MQTTAgentCommand_Terminate queue pendingAcks).2.2.2 = MQTTSuccess ∧
    (MQTTAgentCommand_Terminate queue pendingAcks).2.2.1.endLoop = true ∧
    (∀ c ∈ queue,
      (c.hasCallback = true →
        AgentEvent.CallbackInvoked c.cmdId
            { returnCode := MQTTBadResponse, pSubackCodes := none } ∈
          (MQTTAgentCommand_Terminate queue pendingAcks).1) ∧
      AgentEvent.CommandReleased c.cmdId ∈
        (MQTTAgentCommand_Terminate queue pendingAcks).1) ∧
    (∀ a ∈ pendingAcks, ∀ c, a.packetId ≠ 0 → a.pOriginalCommand = some c →
      (c.hasCallback = true →
        AgentEvent.CallbackInvoked c.cmdId
            { returnCode := MQTTBadResponse, pSubackCodes := none } ∈
          (MQTTAgentCommand_Terminate queue pendingAcks).1) ∧
      AgentEvent.CommandReleased c.cmdId ∈
        (MQTTAgentCommand_Terminate queue pendingAcks).1) ∧
    (∀ ev ∈ (MQTTAgentCommand_Terminate queue pendingAcks).1, ∀ cmdId info,
      ev = AgentEvent.CallbackInvoked cmdId info →
      info = { returnCode := MQTTBadResponse, pSubackCodes := none }) ∧
    (∀ a ∈ (MQTTAgentCommand_Terminate queue pendingAcks).2.1, a = emptyAck) ∧
    (∀ terminateCmd : Command, ∀ incomingPackets : List IncomingPacket,
      ∀ processLoopStatus : MQTTStatus,
      (processCommand (MQTTAgentCommand_Terminate queue pendingAcks).2.1
          (some terminateCmd)
          (MQTTAgentCommand_Terminate queue pendingAcks).2.2.2
          (MQTTAgentCommand_Terminate queue pendingAcks).2.2.1
          incomingPackets processLoopStatus).status = MQTTSuccess ∧
      (processCommand (MQTTAgentCommand_Terminate queue pendingAcks).2.1
          (some terminateCmd)
          (MQTTAgentCommand_Terminate queue pendingAcks).2.2.2
          (MQTTAgentCommand_Terminate queue pendingAcks).2.2.1
          incomingPackets processLoopStatus).endLoop = true) := by
  have hev : (MQTTAgentCommand_Terminate queue pendingAcks).1 =
      drainCommandQueue queue ++ (drainPendingAcks pendingAcks).1 := rfl
  have htbl : (MQTTAgentCommand_Terminate queue pendingAcks).2.1 =
      (drainPendingAcks pendingAcks).2 := rfl
  refine ⟨rfl, rfl, ?_, ?_, ?_, ?_, ?_⟩
  · intro c hc
    rw [hev]
    exact ⟨fun hcb => List.mem_append_left _
        ((drainCommandQueue_mem queue c hc).1 hcb),
      List.mem_append_left _ (drainCommandQueue_mem queue c hc).2⟩
  · intro a ha c hnz hc
    rw [hev]
    exact ⟨fun hcb => List.mem_append_right _
        ((drainPendingAcks_mem pendingAcks a ha c hnz hc).1 hcb),
      List.mem_append_right _ (drainPendingAcks_mem pendingAcks a ha c hnz hc).2⟩
  · intro ev hevm cmdId info heq
    rw [hev] at hevm
    rcases List.mem_append.mp hevm with h | h
    · exact drainCommandQueue_info queue ev h cmdId info heq
    · exact drainPendingAcks_info pendingAcks ev h cmdId info heq
  · rw [htbl]
    exact drainPendingAcks_all_empty pendingAcks hzero
  · intro terminateCmd incomingPackets processLoopStatus
    constructor
    · simp [processCommand, MQTTAgentCommand_Terminate]
    · simp [processCommand, MQTTAgentCommand_Terminate]

theorem terminate_cancels_everything_witness :
    (∀ a ∈ [({ packetId := 42,
               pOriginalCommand := some { cmdId := 4,
                                          commandType := CommandType.PUBLISH,
                                          pubInfo := none,
                                          hasCallback := true } } : AckInfo)],
      a.packetId = 0 → a = emptyAck) ∧
    (MQTTAgentCommand_Terminate
      [{ cmdId := 1, commandType := CommandType.PUBLISH, pubInfo := none,
         hasCallback := true },
       { cmdId := 2, commandType := CommandType.SUBSCRIBE, pubInfo := none,
         hasCallback := true },
       { cmdId := 3, commandType := CommandType.PING, pubInfo := none,
         hasCallback := false }]
      [{ packetId := 42,
         pOriginalCommand := some { cmdId := 4,
                                    commandType := CommandType.PUBLISH,
                                    pubInfo := none,
                                    hasCallback := true } }]).2.2.2 =
      MQTTSuccess :=
  ⟨by decide,
    (terminate_cancels_everything
      [{ cmdId := 1, commandType := CommandType.PUBLISH, pubInfo := none,
         hasCallback := true },
       { cmdId := 2, commandType := CommandType.SUBSCRIBE, pubInfo := none,
         hasCallback := true },
       { cmdId := 3, commandType := CommandType.PING, pubInfo := none,
         hasCallback := false }]
      [{ packetId := 42,
         pOriginalCommand := some { cmdId := 4,
                                    commandType := CommandType.PUBLISH,
                                    pubInfo := none,
                                    hasCallback := true } }]
      (by decide)).1⟩

/-- C7 counterexample: an oversized publish request
(`topicNameLength + 4 ≥ networkBuffer.size`) is NOT always rejected with
`MQTTBadParameter`: when the publish also has QoS > 0 and the pending-ack
list is full, `createCommand` converts the rejection to `MQTTNoMemory`
(mqtt_agent.c lines 436-442), so `MQTTAgent_Publish` returns
`MQTTNoMemory`. -/
theorem publish_oversize_not_bad_parameter :
    (6 + 4 ≥ 10) ∧
    (MQTTAgent_Publish true
      { sendNonNull := true, recvNonNull := true, getCommandNonNull := true,
        releaseCommandNonNull := true, msgCtxNonNull := true } true
      (some { qos := 1, dup := false, topicNameLength := 6 }) 5
      [{ packetId := 1,
         pOriginalCommand := some { cmdId := 3,
                                    commandType := CommandType.PUBLISH,
                                    pubInfo := none,
                                    hasCallback := true } }]
      10 true (some 0) true).status ≠ MQTTBadParameter ∧
    (MQTTAgent_Publish true
      { sendNonNull := true, recvNonNull := true, getCommandNonNull := true,
        releaseCommandNonNull := true, msgCtxNonNull := true } true
      (some { qos := 1, dup := false, topicNameLength := 6 }) 5
      [{ packetId := 1,
         pOriginalCommand := some { cmdId := 3,
                                    commandType := CommandType.PUBLISH,
                                    pubInfo := none,
                                    hasCallback := true } }]
      10 true (some 0) true).status = MQTTNoMemory := by
  decide

/-- C7 (amended): a Publish enqueue request with
`topicNameLength + 4 ≥ networkBuffer.size` is rejected before any state
mutation — no command is enqueued and the pending-ack table is unchanged —
with status `MQTTBadParameter`, unless the request also fails the
pending-ack space check (QoS > 0 with a full table), in which case the
status is `MQTTNoMemory`. -/
theorem publish_oversize_rejected (interfacePresence : InterfacePresence)
    (pubInfo : MQTTPublishInfo) (nextPacketId : Nat)
    (pendingAcks : List AckInfo) (bufferSize : Nat) (hasCallback : Bool)
    (poolId : Nat) (sendOk : Bool)
    (hsize : pubInfo.topicNameLength + 4 ≥ bufferSize)
    (hinit : nextPacketId ≠ 0)
    (hstruct : validateStruct true interfacePresence true = true) :
    (MQTTAgent_Publish true interfacePresence true (some pubInfo)
        nextPacketId pendingAcks bufferSize hasCallback (some poolId)
        sendOk).status =
      (if pubInfo.qos ≠ 0 ∧ isSpaceInPendingAckList pendingAcks = false then
        MQTTNoMemory
       else MQTTBadParameter) ∧
    (MQTTAgent_Publish true interfacePresence true (some pubInfo)
        nextPacketId pendingAcks bufferSize hasCallback (some poolId)
        sendOk).enqueued = false ∧
    (MQTTAgent_Publish true interfacePresence true (some pubInfo)
        nextPacketId pendingAcks bufferSize hasCallback (some poolId)
        sendOk).pendingAcks = pendingAcks := by
  have hlt : ¬(4 + pubInfo.topicNameLength < bufferSize) := by omega
  have hinit' : nextPacketId ≠ MQTT_PACKET_ID_INVALID := by
    simpa [MQTT_PACKET_ID_INVALID] using hinit
  rw [MQTTAgent_Publish]
  rw [if_pos (by simp [hstruct, validateParams])]
  rw [createAndAddCommand, if_pos hinit']
  rw [createCommand]
  dsimp only
  by_cases hqos : pubInfo.qos ≠ 0
  · by_cases hspace : isSpaceInPendingAckList pendingAcks = true
    · simp [hqos, hspace, decide_eq_false hlt]
    · have hspace' : isSpaceInPendingAckList pendingAcks = false := by
        simpa using hspace
      simp [hqos, hspace', decide_eq_false hlt]
  · have hqos' : pubInfo.qos = 0 := by
      simpa using hqos
    simp [hqos', decide_eq_false hlt]

theorem publish_oversize_rejected_witness :
    ((6 : Nat) + 4 ≥ 10 ∧ (5 : Nat) ≠ 0 ∧
      validateStruct true
        { sendNonNull := true, recvNonNull := true, getCommandNonNull := true,
          releaseCommandNonNull := true, msgCtxNonNull := true } true = true) ∧
    (MQTTAgent_Publish true
        { sendNonNull := true, recvNonNull := true, getCommandNonNull := true,
          releaseCommandNonNull := true, msgCtxNonNull := true } true
        (some { qos := 0, dup := false, topicNameLength := 6 }) 5 [emptyAck]
        10 true (some 0) true).status =
      (if (0 : Nat) ≠ 0 ∧ isSpaceInPendingAckList [emptyAck] = false then
        MQTTNoMemory
       else MQTTBadParameter) :=
  ⟨⟨by decide, by decide, by decide⟩,
    (publish_oversize_rejected
      { sendNonNull := true, recvNonNull := true, getCommandNonNull := true,
        releaseCommandNonNull := true, msgCtxNonNull := true }
      { qos := 0, dup := false, topicNameLength := 6 } 5 [emptyAck] 10 true
      0 true (by decide) (by decide) (by decide)).1⟩

/-- Every pending-ack slot after the Terminate drain holds packet id 0. -/
theorem drainPendingAcks_pid_zero (pendingAcks : List AckInfo) :
    ∀ a ∈ (drainPendingAcks pendingAcks).2, a.packetId = 0 := by
  induction pendingAcks with
  | nil => simp [drainPendingAcks]
  | cons hd tl ih =>
    cases hdrain : drainPendingAcks tl with
    | mk events rest' =>
      rw [hdrain] at ih
      rw [drainPendingAcks, hdrain]
      dsimp only
      by_cases h1 : hd.packetId ≠ MQTT_PACKET_ID_INVALID
      · rw [if_pos h1]
        intro a ha
        rcases List.mem_cons.mp ha with ha' | ha'
        · rw [ha']
          rfl
        · exact ih a ha'
      · rw [if_neg h1]
        intro a ha
        rcases List.mem_cons.mp ha with ha' | ha'
        · rw [ha']
          simpa [MQTT_PACKET_ID_INVALID] using h1
        · exact ih a ha'

theorem ackUniqueness_of_pid_zero (pendingAcks : List AckInfo)
    (h : ∀ a ∈ pendingAcks, a.packetId = 0) :
    ackUniqueness pendingAcks := by
  intro packetId hnz
  have : pidOccurrences pendingAcks packetId = 0 := by
    rw [pidOccurrences]
    rw [List.countP_eq_zero]
    intro a ha
    simp only [decide_eq_true_eq]
    rw [h a ha]
    exact fun hx => hnz hx.symm
  omega

theorem pidOccurrences_set_empty_le (pendingAcks : List AckInfo) (idx : Nat)
    (a : AckInfo) (q : Nat) (hget : pendingAcks[idx]? = some a) (hq : q ≠ 0) :
    pidOccurrences (pendingAcks.set idx emptyAck) q ≤
      pidOccurrences pendingAcks q := by
  have hset := countP_set_add (fun x : AckInfo => decide (x.packetId = q))
    pendingAcks idx a emptyAck hget
  have hempty : (decide (emptyAck.packetId = q)) = false := by
    simp [emptyAck]
    exact fun hx => hq hx.symm
  dsimp only at hset
  rw [hempty] at hset
  simp only [Bool.false_eq_true, if_false] at hset
  rw [pidOccurrences, pidOccurrences]
  omega

theorem applyTableOp_preserves_uniqueness (pendingAcks : List AckInfo)
    (op : TableOp) (hu : ackUniqueness pendingAcks)
    (hop : match op with
           | TableOp.reserve packetId _ =>
             packetId ≠ 0 ∧ pidOccurrences pendingAcks packetId = 0
           | _ => True) :
    ackUniqueness (applyTableOp pendingAcks op) := by
  cases op with
  | reserve packetId cmd =>
    obtain ⟨hnz, hfresh⟩ := hop
    rw [applyTableOp]
    cases hadd : addAwaitingOperation pendingAcks packetId (some cmd) with
    | none =>
      simpa using hu
    | some table' =>
      simp only [Option.getD_some]
      intro q hq
      have := addAwaitingOperation_pidOccurrences pendingAcks packetId
        (some cmd) table' q hadd hq
      by_cases hqp : q = packetId
      · rw [hqp] at this ⊢
        rw [this, hfresh]
        simp
      · rw [this]
        simp only [hqp, if_false]
        have := hu q hq
        omega
  | deliver packet =>
    rw [applyTableOp]
    rcases mqttEventCallback_cases pendingAcks packet with
      ⟨htable, -⟩ | ⟨idx, a, c, hga, -, htable, -⟩
    · rw [htable]
      exact hu
    · rw [htable]
      intro q hq
      obtain ⟨hget, -, -, -⟩ :=
        getAwaitingOperation_eq_some pendingAcks packet.packetIdentifier idx a
          hga
      have := pidOccurrences_set_empty_le pendingAcks idx a q hget hq
      have := hu q hq
      omega
  | clearAll =>
    rw [applyTableOp]
    exact ackUniqueness_of_pid_zero _
      (clearPendingAcknowledgments_all_zero pendingAcks)
  | terminateDrain =>
    rw [applyTableOp]
    exact ackUniqueness_of_pid_zero _ (drainPendingAcks_pid_zero pendingAcks)

/-- C8 counterexample: the claim quantifies over every sequence of table
operations, but `addAwaitingOperation` performs no duplicate check, so two
reservations of the same packet id from the all-zero table produce two
occupied slots holding packet id 7 — uniqueness is violated. -/
theorem reserve_duplicate_breaks_uniqueness :
    ¬ ackUniqueness (applyTableOps (List.replicate 20 emptyAck)
      [TableOp.reserve 7 { cmdId := 1, commandType := CommandType.PUBLISH,
                           pubInfo := none, hasCallback := true },
       TableOp.reserve 7 { cmdId := 2, commandType := CommandType.SUBSCRIBE,
                           pubInfo := none, hasCallback := true }]) :=
  fun h => absurd (h 7 (by decide)) (by decide)

/-- C8 (amended): starting from the all-zero table, at most one occupied
slot holds any given non-zero packet id, as an invariant over every
sequence of the table operations — reserve (`addAwaitingOperation`),
ack delivery (`mqttEventCallback` / `handleAcks`), clear-all
(`clearPendingAcknowledgments`) and the Terminate drain — provided each
reservation uses a non-zero packet id not currently present in the table
(which `MQTT_GetPacketId` provides short of a 16-bit wrap-around while the
old id is still parked); `addAwaitingOperation` itself performs no
duplicate check. -/
theorem ack_uniqueness_invariant (ops : List TableOp)
    (pendingAcks : List AckInfo)
    (hzero : ∀ a ∈ pendingAcks, a = emptyAck)
    (hfresh : freshReserves pendingAcks ops) :
    ackUniqueness (applyTableOps pendingAcks ops) := by
  have hu : ackUniqueness pendingAcks :=
    ackUniqueness_of_pid_zero pendingAcks (fun a ha => by rw [hzero a ha]; rfl)
  clear hzero
  induction ops generalizing pendingAcks with
  | nil => exact hu
  | cons op rest ih =>
    rw [applyTableOps]
    cases op with
    | reserve packetId cmd =>
      exact ih (applyTableOp pendingAcks (TableOp.reserve packetId cmd))
        hfresh.2 (applyTableOp_preserves_uniqueness pendingAcks
          (TableOp.reserve packetId cmd) hu hfresh.1)
    | deliver packet =>
      exact ih (applyTableOp pendingAcks (TableOp.deliver packet)) hfresh.2
        (applyTableOp_preserves_uniqueness pendingAcks (TableOp.deliver packet)
          hu trivial)
    | clearAll =>
      exact ih (applyTableOp pendingAcks TableOp.clearAll) hfresh.2
        (applyTableOp_preserves_uniqueness pendingAcks TableOp.clearAll hu
          trivial)
    | terminateDrain =>
      exact ih (applyTableOp pendingAcks TableOp.terminateDrain) hfresh.2
        (applyTableOp_preserves_uniqueness pendingAcks TableOp.terminateDrain
          hu trivial)

theorem ack_uniqueness_invariant_witness :
    ((∀ a ∈ List.replicate 2 emptyAck, a = emptyAck) ∧
      (7 : Nat) ≠ 0 ∧ pidOccurrences (List.replicate 2 emptyAck) 7 = 0) ∧
    ackUniqueness (applyTableOps (List.replicate 2 emptyAck)
      [TableOp.reserve 7 { cmdId := 1, commandType := CommandType.PUBLISH,
                           pubInfo := none, hasCallback := true }]) :=
  ⟨⟨by decide, by decide, by decide⟩,
    ack_uniqueness_invariant
      [TableOp.reserve 7 { cmdId := 1, commandType := CommandType.PUBLISH,
                           pubInfo := none, hasCallback := true }]
      (List.replicate 2 emptyAck) (by decide)
      ⟨⟨by decide, by decide⟩, trivial⟩⟩

theorem dupVariant_refl (a : AckInfo) : dupVariant a a := Or.inl rfl

theorem dupVariant_packetId (a b : AckInfo) (h : dupVariant a b) :
    b.packetId = a.packetId := by
  rcases h with h | ⟨c, info, hc, hinfo, h⟩
  · rw [h]
  · rw [h]

theorem dupVariant_entryId (a b : AckInfo) (h : dupVariant a b) :
    ackEntryId b = ackEntryId a := by
  rcases h with h | ⟨c, info, hc, hinfo, h⟩
  · rw [h]
  · rw [h, ackEntryId, ackEntryId, hc]
    rfl

theorem dupVariant_cmd_none (a b : AckInfo) (h : dupVariant a b) :
    b.pOriginalCommand = none ↔ a.pOriginalCommand = none := by
  rcases h with h | ⟨c, info, hc, hinfo, h⟩
  · rw [h]
  · rw [h, hc]
    simp

/-- The scan of `getAwaitingOperation` sees the same indices and matching
slots through `dupVariant`-related tables: a miss is a miss in both, and a
hit at index `i` in the current table corresponds to a hit at the same
index in the original one. -/
theorem getAwaitingOperation_rel (pendingAcks cur : List AckInfo) (pid : Nat)
    (hrel : List.Forall₂ dupVariant pendingAcks cur) :
    (getAwaitingOperation cur pid = none →
      getAwaitingOperation pendingAcks pid = none) ∧
    ∀ i b, getAwaitingOperation cur pid = some (i, b) →
      ∃ a, getAwaitingOperation pendingAcks pid = some (i, a) ∧
        dupVariant a b := by
  induction hrel with
  | nil => exact ⟨fun _ => rfl, fun i b h => by simp [getAwaitingOperation] at h⟩
  | cons hab hrest ih =>
    rename_i a b t₁ t₂
    have hpid : b.packetId = a.packetId := dupVariant_packetId a b hab
    constructor
    · intro hnone
      rw [getAwaitingOperation] at hnone ⊢
      by_cases h1 : a.packetId = pid
      · rw [if_pos h1]
        rw [if_pos (hpid.trans h1)] at hnone
        by_cases h2 : b.pOriginalCommand = none ∨ b.packetId = 0
        · have h2' : a.pOriginalCommand = none ∨ a.packetId = 0 := by
            rcases h2 with h2 | h2
            · exact Or.inl ((dupVariant_cmd_none a b hab).mp h2)
            · exact Or.inr (hpid ▸ h2)
          rw [if_pos h2']
        · rw [if_neg h2] at hnone
          simp at hnone
      · rw [if_neg h1]
        rw [if_neg (fun hx => h1 (hpid ▸ hx))] at hnone
        cases hrec : getAwaitingOperation t₂ pid with
        | none =>
          rw [ih.1 hrec]
        | some pair =>
          rw [hrec] at hnone
          simp at hnone
    · intro i bf hsome
      rw [getAwaitingOperation] at hsome ⊢
      by_cases h1 : a.packetId = pid
      · rw [if_pos h1]
        rw [if_pos (hpid.trans h1)] at hsome
        by_cases h2 : b.pOriginalCommand = none ∨ b.packetId = 0
        · rw [if_pos h2] at hsome
          simp at hsome
        · rw [if_neg h2] at hsome
          have h2' : ¬(a.pOriginalCommand = none ∨ a.packetId = 0) := by
            intro hx
            apply h2
            rcases hx with hx | hx
            · exact Or.inl ((dupVariant_cmd_none a b hab).mpr hx)
            · exact Or.inr (hpid.trans hx)
          rw [if_neg h2']
          have hib : (0, b) = (i, bf) := Option.some_inj.mp hsome
          have hi : i = 0 := (Prod.mk.injEq _ _ _ _ ▸ hib).1.symm
          have hb : b = bf := (Prod.mk.injEq _ _ _ _ ▸ hib).2
          rw [hi]
          exact ⟨a, rfl, hb ▸ hab⟩
      · rw [if_neg h1]
        rw [if_neg (fun hx => h1 (hpid ▸ hx))] at hsome
        cases hrec : getAwaitingOperation t₂ pid with
        | none =>
          rw [hrec] at hsome
          simp at hsome
        | some pair =>
          obtain ⟨j, bj⟩ := pair
          rw [hrec] at hsome
          have hib : (j + 1, bj) = (i, bf) := Option.some_inj.mp hsome
          have hi : i = j + 1 := (Prod.mk.injEq _ _ _ _ ▸ hib).1.symm
          have hb : bj = bf := (Prod.mk.injEq _ _ _ _ ▸ hib).2
          obtain ⟨af, haf, hvar⟩ := ih.2 j bj hrec
          rw [haf, hi]
          exact ⟨af, rfl, hb ▸ hvar⟩

/-- Setting the found slot's publish-info `dup` flag keeps the table
`dupVariant`-related to the original. -/
theorem forall₂_dupVariant_set (pendingAcks cur : List AckInfo) (i : Nat)
    (b' : AckInfo) (hrel : List.Forall₂ dupVariant pendingAcks cur)
    (hb' : ∀ a, pendingAcks[i]? = some a → dupVariant a b') :
    List.Forall₂ dupVariant pendingAcks (cur.set i b') := by
  induction hrel generalizing i with
  | nil => exact List.Forall₂.nil
  | cons hab hrest ih =>
    rename_i a b t₁ t₂
    cases i with
    | zero =>
      rw [List.set_cons_zero]
      exact List.Forall₂.cons (hb' a (by simp)) hrest
    | succ n =>
      rw [List.set_cons_succ]
      exact List.Forall₂.cons hab (ih n (fun x hx => hb' x (by simpa using hx)))

/-- Re-setting an already-set `dup` flag is idempotent. -/
theorem dup_set_idempotent (info : MQTTPublishInfo) :
    ({ ({ info with dup := true } : MQTTPublishInfo) with dup := true } :
      MQTTPublishInfo) = { info with dup := true } := rfl

theorem dupVariant_dup_set (a b : AckInfo) (c : Command)
    (info : MQTTPublishInfo) (h : dupVariant a b)
    (hc : b.pOriginalCommand = some c) (hinfo : c.pubInfo = some info) :
    dupVariant a { b with
                   pOriginalCommand :=
                     some { c with
                            pubInfo := some { info with dup := true } } } := by
  rcases h with h | ⟨c₀, info₀, hc₀, hinfo₀, h⟩
  · right
    refine ⟨c, info, ?_, hinfo, ?_⟩
    · rw [← h]
      exact hc
    · rw [h]
  · right
    refine ⟨c₀, info₀, hc₀, hinfo₀, ?_⟩
    rw [h] at hc
    have hcc : c = { c₀ with pubInfo := some { info₀ with dup := true } } :=
      (Option.some_inj.mp hc).symm
    rw [hcc] at hinfo
    simp only at hinfo
    have hii : info = { info₀ with dup := true } := Option.some_inj.mp hinfo.symm
    rw [h, hcc, hii]

theorem forall₂_dupVariant_entryId (pendingAcks cur : List AckInfo)
    (hrel : List.Forall₂ dupVariant pendingAcks cur) :
    cur.map ackEntryId = pendingAcks.map ackEntryId := by
  induction hrel with
  | nil => rfl
  | cons hab hrest ih =>
    rename_i a b t₁ t₂
    rw [List.map_cons, List.map_cons, dupVariant_entryId a b hab, ih]

theorem getLast?_cons_of_some {α : Type} (a x : α) (l : List α)
    (h : l.getLast? = some x) : (a :: l).getLast? = some x := by
  cases l with
  | nil => simp at h
  | cons b t =>
    rw [List.getLast?_cons_cons]
    exact h

/-- Behaviour of `resendPublishes` relative to the original table through
the `dupVariant` relation: the run exists (no type-confused cast) whenever
every yielded-and-found packet id belongs to a command with publish-info
args; the resulting table stays `dupVariant`-related; every re-publish uses
the parked publish with its `dup` flag set and the parked packet id; the
first failing publish is last and its status is returned. -/
theorem resendPublishes_spec (pendingAcks : List AckInfo)
    (resendIds : List Nat) (publishStatus : Nat → MQTTStatus) :
    ∀ cur : List AckInfo, List.Forall₂ dupVariant pendingAcks cur →
    (∀ pid ∈ resendIds, ∀ i a c,
      getAwaitingOperation pendingAcks pid = some (i, a) →
      a.pOriginalCommand = some c → c.pubInfo ≠ none) →
    ∃ st t' evs,
      resendPublishes cur resendIds publishStatus = some (st, t', evs) ∧
      List.Forall₂ dupVariant pendingAcks t' ∧
      (∀ pid info, AgentEvent.PublishResent pid info ∈ evs →
        pid ∈ resendIds ∧ info.dup = true ∧
        ∃ i a c info₀,
          getAwaitingOperation pendingAcks pid = some (i, a) ∧
          a.pOriginalCommand = some c ∧ c.pubInfo = some info₀ ∧
          info = { info₀ with dup := true }) ∧
      (st ≠ MQTTSuccess → ∃ pid info,
        evs.getLast? = some (AgentEvent.PublishResent pid info) ∧
        publishStatus pid = st) ∧
      (∀ pid info, AgentEvent.PublishResent pid info ∈ evs.dropLast →
        publishStatus pid = MQTTSuccess) ∧
      (st = MQTTSuccess → ∀ pid info,
        AgentEvent.PublishResent pid info ∈ evs →
        publishStatus pid = MQTTSuccess) ∧
      (st = MQTTSuccess → ∀ pid ∈ resendIds,
        getAwaitingOperation pendingAcks pid ≠ none →
        ∃ info, AgentEvent.PublishResent pid info ∈ evs) := by
  induction resendIds with
  | nil =>
    intro cur hrel hpub
    refine ⟨MQTTSuccess, cur, [], rfl, hrel, by simp, ?_, by simp, by simp,
      by simp⟩
    intro hst
    exact absurd rfl hst
  | cons pid rest ih =>
    intro cur hrel hpub
    have hpub' : ∀ q ∈ rest, ∀ i a c,
        getAwaitingOperation pendingAcks q = some (i, a) →
        a.pOriginalCommand = some c → c.pubInfo ≠ none :=
      fun q hq => hpub q (List.mem_cons_of_mem _ hq)
    rw [resendPublishes]
    cases hga : getAwaitingOperation cur pid with
    | none =>
      have hganone : getAwaitingOperation pendingAcks pid = none :=
        (getAwaitingOperation_rel pendingAcks cur pid hrel).1 hga
      obtain ⟨st, t', evs, heq, hB, hC, hD, hE, hF, hG⟩ := ih cur hrel hpub'
      refine ⟨st, t', evs, ?_, hB, ?_, hD, hE, hF, ?_⟩
      · rw [heq]
      · intro q info hmem
        obtain ⟨hq, hdup, hrest⟩ := hC q info hmem
        exact ⟨List.mem_cons_of_mem _ hq, hdup, hrest⟩
      · intro hst q hq hfound
        rcases List.mem_cons.mp hq with hq' | hq'
        · rw [hq'] at hfound
          exact absurd hganone hfound
        · exact hG hst q hq' hfound
    | some pair =>
      obtain ⟨idx, ack⟩ := pair
      obtain ⟨hget_cur, hackpid, hpidnz, c, hc⟩ :=
        getAwaitingOperation_eq_some cur pid idx ack hga
      obtain ⟨a₀, hga₀, hvar⟩ :=
        (getAwaitingOperation_rel pendingAcks cur pid hrel).2 idx ack hga
      obtain ⟨hget₀, ha₀pid, -, c₀, hc₀⟩ :=
        getAwaitingOperation_eq_some pendingAcks pid idx a₀ hga₀
      have hpubinfo : ∃ info, c.pubInfo = some info := by
        rcases hvar with hv | ⟨cv, iv, hcv, hiv, hv⟩
        · rw [hv, hc₀] at hc
          have hcc : c₀ = c := Option.some_inj.mp hc
          have hnn := hpub pid (by simp) idx a₀ c₀ hga₀ hc₀
          rw [hcc] at hnn
          cases hpi : c.pubInfo with
          | none => exact absurd hpi hnn
          | some i => exact ⟨i, rfl⟩
        · rw [hv] at hc
          dsimp only at hc
          have hceq : c = { cv with pubInfo := some { iv with dup := true } } :=
            (Option.some_inj.mp hc).symm
          exact ⟨{ iv with dup := true }, by rw [hceq]⟩
      obtain ⟨info, hinfo⟩ := hpubinfo
      have hHead : ∃ info₀, c₀.pubInfo = some info₀ ∧
          ({ info with dup := true } : MQTTPublishInfo) =
            { info₀ with dup := true } := by
        rcases hvar with hv | ⟨cv, iv, hcv, hiv, hv⟩
        · rw [hv, hc₀] at hc
          have hcc : c₀ = c := Option.some_inj.mp hc
          exact ⟨info, by rw [hcc]; exact hinfo, rfl⟩
        · have hcv₀ : c₀ = cv := by
            rw [hcv] at hc₀
            exact Option.some_inj.mp hc₀.symm
          rw [hv] at hc
          dsimp only at hc
          have hceq : c = { cv with pubInfo := some { iv with dup := true } } :=
            (Option.some_inj.mp hc).symm
          have hieq : info = { iv with dup := true } := by
            rw [hceq] at hinfo
            dsimp only at hinfo
            exact (Option.some_inj.mp hinfo).symm
          refine ⟨iv, by rw [hcv₀]; exact hiv, ?_⟩
          rw [hieq]
      have hrel' : List.Forall₂ dupVariant pendingAcks
          (cur.set idx { ack with
            pOriginalCommand :=
              some { c with pubInfo := some { info with dup := true } } }) := by
        refine forall₂_dupVariant_set pendingAcks cur idx _ hrel ?_
        intro x hx
        rw [hget₀] at hx
        have hxa : x = a₀ := Option.some_inj.mp hx.symm
        rw [hxa]
        exact dupVariant_dup_set a₀ ack c info hvar hc hinfo
      simp only [hc, hinfo]
      by_cases hst : publishStatus pid = MQTTSuccess
      · obtain ⟨st, t'', evs', heq, hB, hC, hD, hE, hF, hG⟩ :=
          ih (cur.set idx { ack with
            pOriginalCommand :=
              some { c with pubInfo := some { info with dup := true } } })
            hrel' hpub'
        refine ⟨st, t'',
          AgentEvent.PublishResent pid { info with dup := true } :: evs',
          ?_, hB, ?_, ?_, ?_, ?_, ?_⟩
        · rw [if_pos hst, heq]
        · intro q info' hmem
          rcases List.mem_cons.mp hmem with hmem' | hmem'
          · simp only [AgentEvent.PublishResent.injEq] at hmem'
            obtain ⟨hq, hinfo'⟩ := hmem'
            obtain ⟨info₀, hi₀, hieq⟩ := hHead
            rw [hq]
            exact ⟨by simp, by rw [hinfo'],
              idx, a₀, c₀, info₀, hga₀, hc₀, hi₀, by rw [hinfo']; exact hieq⟩
          · obtain ⟨hq, hdup, hrest⟩ := hC q info' hmem'
            exact ⟨List.mem_cons_of_mem _ hq, hdup, hrest⟩
        · intro hstne
          obtain ⟨q, info', hlast, hps⟩ := hD hstne
          exact ⟨q, info', getLast?_cons_of_some _ _ _ hlast, hps⟩
        · intro q info' hmem
          cases hevs : evs' with
          | nil =>
            rw [hevs] at hmem
            simp at hmem
          | cons b t =>
            rw [hevs] at hmem
            rw [List.dropLast_cons₂] at hmem
            rcases List.mem_cons.mp hmem with hmem' | hmem'
            · simp only [AgentEvent.PublishResent.injEq] at hmem'
              rw [hmem'.1]
              exact hst
            · exact hE q info' (by rw [hevs]; exact hmem')
        · intro hsteq q info' hmem
          rcases List.mem_cons.mp hmem with hmem' | hmem'
          · simp only [AgentEvent.PublishResent.injEq] at hmem'
            rw [hmem'.1]
            exact hst
          · exact hF hsteq q info' hmem'
        · intro hsteq q hq hfound
          rcases List.mem_cons.mp hq with hq' | hq'
          · exact ⟨{ info with dup := true }, by rw [hq']; simp⟩
          · obtain ⟨info', hmem⟩ := hG hsteq q hq' hfound
            exact ⟨info', List.mem_cons_of_mem _ hmem⟩
      · refine ⟨publishStatus pid,
          cur.set idx { ack with
            pOriginalCommand :=
              some { c with pubInfo := some { info with dup := true } } },
          [AgentEvent.PublishResent pid { info with dup := true }],
          ?_, hrel', ?_, ?_, ?_, ?_, ?_⟩
        · rw [if_neg hst]
        · intro q info' hmem
          simp only [List.mem_singleton] at hmem
          simp only [AgentEvent.PublishResent.injEq] at hmem
          obtain ⟨hq, hinfo'⟩ := hmem
          obtain ⟨info₀, hi₀, hieq⟩ := hHead
          rw [hq]
          exact ⟨by simp, by rw [hinfo'],
            idx, a₀, c₀, info₀, hga₀, hc₀, hi₀, by rw [hinfo']; exact hieq⟩
        · intro hstne
          exact ⟨pid, { info with dup := true }, rfl, rfl⟩
        · intro q info' hmem
          simp at hmem
        · intro hsteq
          exact absurd hsteq hst
        · intro hsteq
          exact absurd hsteq hst

/-- C6: on an initialized context, `MQTTAgent_ResumeSession` with
`sessionPresent == true` iterates the publishes-to-resend cursor; each
yielded packet id found in the pending-ack table (whose originating command
is a PUBLISH, i.e. carries publish-info args) has the `dup` flag set on its
publish-info and is republished with the same packet id; the first publish
failure aborts the iteration and its status is returned; and the table
entries — packet id and originating command pointer — are left unchanged by
the whole operation. -/
theorem resume_with_session_resends (s : AgentState) (resendIds : List Nat)
    (publishStatus : Nat → MQTTStatus)
    (hinit : s.nextPacketId ≠ 0)
    (hpub : ∀ pid ∈ resendIds, ∀ i a c,
      getAwaitingOperation s.pendingAcks pid = some (i, a) →
      a.pOriginalCommand = some c → c.pubInfo ≠ none) :
    ∃ st t' evs,
      MQTTAgent_ResumeSession (some s) true resendIds publishStatus =
        (st, some { nextPacketId := s.nextPacketId, pendingAcks := t' },
          evs) ∧
      t'.map ackEntryId = s.pendingAcks.map ackEntryId ∧
      (∀ pid info, AgentEvent.PublishResent pid info ∈ evs →
        pid ∈ resendIds ∧ info.dup = true ∧
        ∃ i a c info₀,
          getAwaitingOperation s.pendingAcks pid = some (i, a) ∧
          a.pOriginalCommand = some c ∧ c.pubInfo = some info₀ ∧
          info = { info₀ with dup := true }) ∧
      (st ≠ MQTTSuccess → ∃ pid info,
        evs.getLast? = some (AgentEvent.PublishResent pid info) ∧
        publishStatus pid = st) ∧
      (∀ pid info, AgentEvent.PublishResent pid info ∈ evs.dropLast →
        publishStatus pid = MQTTSuccess) ∧
      (st = MQTTSuccess → ∀ pid ∈ resendIds,
        getAwaitingOperation s.pendingAcks pid ≠ none →
        ∃ info, AgentEvent.PublishResent pid info ∈ evs) := by
  obtain ⟨st, t', evs, heq, hB, hC, hD, hE, hF, hG⟩ :=
    resendPublishes_spec s.pendingAcks resendIds publishStatus s.pendingAcks
      (List.forall₂_same.mpr (fun a _ => dupVariant_refl a)) hpub
  refine ⟨st, t', evs, ?_, forall₂_dupVariant_entryId _ _ hB, hC, hD, hE, hG⟩
  rw [MQTTAgent_ResumeSession]
  rw [if_pos (by simpa [MQTT_PACKET_ID_INVALID] using hinit)]
  rw [if_pos rfl, heq]

theorem resume_with_session_resends_witness :
    (12 : Nat) ≠ 0 ∧
    ∃ st t' evs,
      MQTTAgent_ResumeSession
          (some { nextPacketId := 12,
                  pendingAcks := [{ packetId := 11,
                                    pOriginalCommand := some { cmdId := 6,
                                                               commandType := CommandType.PUBLISH,
                                                               pubInfo := some { qos := 1,
                                                                                 dup := false,
                                                                                 topicNameLength := 3 },
                                                               hasCallback := true } }] })
          true [11] (fun _ => MQTTSuccess) =
        (st, some { nextPacketId := 12, pendingAcks := t' }, evs) ∧
      t'.map ackEntryId =
        ([{ packetId := 11,
            pOriginalCommand := some { cmdId := 6,
                                       commandType := CommandType.PUBLISH,
                                       pubInfo := some { qos := 1,
                                                         dup := false,
                                                         topicNameLength := 3 },
                                       hasCallback := true } }] :
          List AckInfo).map ackEntryId ∧
      (∀ pid info, AgentEvent.PublishResent pid info ∈ evs →
        pid ∈ [11] ∧ info.dup = true ∧
        ∃ i a c info₀,
          getAwaitingOperation
            [{ packetId := 11,
               pOriginalCommand := some { cmdId := 6,
                                          commandType := CommandType.PUBLISH,
                                          pubInfo := some { qos := 1,
                                                            dup := false,
                                                            topicNameLength := 3 },
                                          hasCallback := true } }] pid =
            some (i, a) ∧
          a.pOriginalCommand = some c ∧ c.pubInfo = some info₀ ∧
          info = { info₀ with dup := true }) ∧
      (st ≠ MQTTSuccess → ∃ pid info,
        evs.getLast? = some (AgentEvent.PublishResent pid info) ∧
        (fun _ => MQTTSuccess : Nat → MQTTStatus) pid = st) ∧
      (∀ pid info, AgentEvent.PublishResent pid info ∈ evs.dropLast →
        (fun _ => MQTTSuccess : Nat → MQTTStatus) pid = MQTTSuccess) ∧
      (st = MQTTSuccess → ∀ pid ∈ [11],
        getAwaitingOperation
          [{ packetId := 11,
             pOriginalCommand := some { cmdId := 6,
                                        commandType := CommandType.PUBLISH,
                                        pubInfo := some { qos := 1,
                                                          dup := false,
                                                          topicNameLength := 3 },
                                        hasCallback := true } }] pid ≠
          none →
        ∃ info, AgentEvent.PublishResent pid info ∈ evs) :=
  ⟨by decide,
    resume_with_session_resends
      { nextPacketId := 12,
        pendingAcks := [{ packetId := 11,
                          pOriginalCommand := some { cmdId := 6,
                                                     commandType := CommandType.PUBLISH,
                                                     pubInfo := some { qos := 1,
                                                                       dup := false,
                                                                       topicNameLength := 3 },
                                                     hasCallback := true } }] }
      [11] (fun _ => MQTTSuccess) (by decide)
      (by
        intro pid hpid i a c hga hc
        simp only [List.mem_singleton] at hpid
        subst hpid
        rw [show getAwaitingOperation
            [{ packetId := 11,
               pOriginalCommand := some { cmdId := 6,
                                          commandType := CommandType.PUBLISH,
                                          pubInfo := some { qos := 1,
                                                            dup := false,
                                                            topicNameLength := 3 },
                                          hasCallback := true } }] 11 =
            some (0, { packetId := 11,
                       pOriginalCommand := some { cmdId := 6,
                                                  commandType := CommandType.PUBLISH,
                                                  pubInfo := some { qos := 1,
                                                                    dup := false,
                                                                    topicNameLength := 3 },
                                                  hasCallback := true } })
          from by decide] at hga
        have hia := Option.some_inj.mp hga
        have ha : ({ packetId := 11,
                     pOriginalCommand := some { cmdId := 6,
                                                commandType := CommandType.PUBLISH,
                                                pubInfo := some { qos := 1,
                                                                  dup := false,
                                                                  topicNameLength := 3 },
                                                hasCallback := true } } :
            AckInfo) = a := (Prod.mk.injEq _ _ _ _ ▸ hia).2
        rw [← ha] at hc
        have hcc := Option.some_inj.mp hc
        rw [← hcc]
        simp)⟩

end CoreMQTTAgent
